import Mathlib

/-!
Verification development for the retrieval subsystem of the higgs-rag
repository (api/services/dataset_service.py, api/services/hit_testing_service.py,
api/core/rag/datasource/retrieval_service.py and the vector-backend adapters
under api/core/rag/datasource/vdb/).

The Python code is shallowly embedded: relational rows become structures,
SQLAlchemy queries become first-match searches over row lists, floats become
rationals, Python exceptions become Except, and the external vector backends
(Milvus server, AnalyticDB instance) are modelled by the guarantees their
query interfaces provide (filter expressions restrict results, LIMIT
truncates).  Each definition cites the source function it embeds.
-/

namespace HiggsRag

/-! ### String helpers (kernel-reducible replacements for substring tests) -/

/-- Check that the first list is an initial run of the second list. -/
def charsLeading : List Char → List Char → Bool
  | [], _ => true
  | _ :: _, [] => false
  | p :: ps, c :: cs => p == c && charsLeading ps cs

/-- Check that the first list occurs contiguously inside the second list. -/
def charsInside (pat : List Char) : List Char → Bool
  | [] => pat.isEmpty
  | c :: cs => charsLeading pat (c :: cs) || charsInside pat cs

/-- SQL LIKE with a pattern of shape v% : the string starts with v. -/
def strStarts (s pat : String) : Bool := charsLeading pat.data s.data

/-- SQL LIKE with a pattern of shape %v : the string ends with v. -/
def strEnds (s pat : String) : Bool := charsLeading pat.data.reverse s.data.reverse

/-- SQL LIKE with a pattern of shape %v% : the string contains v. -/
def strHasSub (s pat : String) : Bool := charsInside pat.data s.data

/-! ### Data model

Canonical Document rows as read by DatasetService.get_document_id_filter
(models/dataset.py class Document): only the columns the filter compiler
touches are modelled.  A doc_metadata JSON map is modelled as an association
list from keys to JSON scalars; a key that is absent behaves like SQL NULL
under the ->> accessor. -/

/-- A JSON scalar stored in a document doc_metadata map. -/
inductive MetaValue where
  | vstr (s : String)
  | vnum (q : Rat)
deriving DecidableEq, Repr

/-- Canonical Document row (models/dataset.py), restricted to the columns used
by the metadata filter compiler. -/
structure DocumentRow where
  id : String
  datasetId : String
  indexingStatus : String
  enabled : Bool
  archived : Bool
  docMetadata : List (String × MetaValue)
deriving DecidableEq, Repr

/-- Lookup of doc_metadata ->> key; none models SQL NULL (key absent). -/
def metaLookup (m : List (String × MetaValue)) (k : String) : Option MetaValue :=
  (m.find? (fun p => p.1 == k)).map (fun p => p.2)

/-- Text form of a JSON scalar under the SQL ->> accessor.  Numeric JSON
values are rendered through the model textual form; none of the claims
depends on the exact rendering. -/
def metaText : MetaValue → String
  | .vstr s => s
  | .vnum q => toString q

/-- Text interpolated for the value inside a LIKE pattern, mirroring the
Python f-string interpolation of the condition value. -/
def likeValueText : Option MetaValue → String
  | none => "None"
  | some (.vstr s) => s
  | some (.vnum q) => toString q

/-- One entry of a metadata_condition, as consumed by
DatasetService.get_document_id_filter (name, comparison_operator, value). -/
structure Condition where
  name : String
  comparisonOperator : String
  value : Option MetaValue
deriving DecidableEq, Repr

/-- The metadata_condition argument: a logical operator together with the
conditions the service iterates over. -/
structure MetadataCondition where
  logicalOperator : String
  conditions : List Condition
deriving DecidableEq, Repr

/-! ### Metadata filter compiler
DatasetService._process_metadata_filter_func (services/dataset_service.py,
lines 150-205).  Each recognized comparison operator compiles to one SQL
predicate over a Document row; the wildcard case appends nothing.  SQL
three-valued logic makes every predicate on an absent key unsatisfied (a
NULL comparison is not true), except the IS NULL test of the empty operator.
Numeric casts are modelled as matching only numeric JSON values. -/

/-- The predicate one condition compiles to, or none for an unrecognized
operator (the silent wildcard branch of the Python match). -/
def compiledPredicate (op : String) (name : String) (value : Option MetaValue) :
    Option (DocumentRow → Bool) :=
  if op = "contains" then
    some (fun d => match metaLookup d.docMetadata name with
      | some v => strHasSub (metaText v) (likeValueText value)
      | none => false)
  else if op = "not contains" then
    some (fun d => match metaLookup d.docMetadata name with
      | some v => !(strHasSub (metaText v) (likeValueText value))
      | none => false)
  else if op = "start with" then
    some (fun d => match metaLookup d.docMetadata name with
      | some v => strStarts (metaText v) (likeValueText value)
      | none => false)
  else if op = "end with" then
    some (fun d => match metaLookup d.docMetadata name with
      | some v => strEnds (metaText v) (likeValueText value)
      | none => false)
  else if op = "=" ∨ op = "is" then
    some (fun d => match value with
      | some (.vstr s) => metaLookup d.docMetadata name == some (.vstr s)
      | some (.vnum q) =>
          match metaLookup d.docMetadata name with
          | some (.vnum w) => w == q
          | _ => false
      | none => false)
  else if op = "is not" ∨ op = "≠" then
    some (fun d => match value with
      | some (.vstr s) =>
          match metaLookup d.docMetadata name with
          | some v => v != .vstr s
          | none => false
      | some (.vnum q) =>
          match metaLookup d.docMetadata name with
          | some (.vnum w) => w != q
          | _ => false
      | none => false)
  else if op = "empty" then
    some (fun d => (metaLookup d.docMetadata name).isNone)
  else if op = "not empty" then
    some (fun d => (metaLookup d.docMetadata name).isSome)
  else if op = "before" ∨ op = "<" then
    some (fun d => match metaLookup d.docMetadata name, value with
      | some (.vnum w), some (.vnum q) => decide (w < q)
      | _, _ => false)
  else if op = "after" ∨ op = ">" then
    some (fun d => match metaLookup d.docMetadata name, value with
      | some (.vnum w), some (.vnum q) => decide (w > q)
      | _, _ => false)
  else if op = "≤" ∨ op = "<=" then
    some (fun d => match metaLookup d.docMetadata name, value with
      | some (.vnum w), some (.vnum q) => decide (w ≤ q)
      | _, _ => false)
  else if op = "≥" ∨ op = ">=" then
    some (fun d => match metaLookup d.docMetadata name, value with
      | some (.vnum w), some (.vnum q) => decide (w ≥ q)
      | _, _ => false)
  else
    none

/-- DatasetService._process_metadata_filter_func: appends the compiled
predicate to the filter list, or returns the list unchanged for an
unrecognized operator. -/
def processMetadataFilterFunc (c : Condition) (filters : List (DocumentRow → Bool)) :
    List (DocumentRow → Bool) :=
  match compiledPredicate c.comparisonOperator c.name c.value with
  | some p => filters ++ [p]
  | none => filters

/-- The operators the Python match statement recognizes. -/
def recognizedOperators : List String :=
  ["contains", "not contains", "start with", "end with", "=", "is",
   "is not", "≠", "empty", "not empty", "before", "<", "after", ">",
   "≤", "<=", "≥", ">="]

/-- Base eligibility scope of the document query in get_document_id_filter:
dataset match, indexing_status completed, enabled and not archived. -/
def baseEligible (datasetId : String) (d : DocumentRow) : Bool :=
  d.datasetId == datasetId && d.indexingStatus == "completed" &&
    d.enabled && !d.archived

/-- DatasetService.get_document_id_filter (services/dataset_service.py,
lines 107-148): compile each condition, combine the compiled predicates
under the declared logical operator, and return the ids of the matching
eligible documents.  When no predicate was compiled the function returns
None (no filtering); when predicates exist but no document matches it
returns the empty list. -/
def get_document_id_filter (docs : List DocumentRow) (datasetId : String)
    (mc : Option MetadataCondition) : Option (List String) :=
  let filters : List (DocumentRow → Bool) :=
    match mc with
    | none => []
    | some m => m.conditions.foldl (fun fs c => processMetadataFilterFunc c fs) []
  if filters.isEmpty then none
  else
    let logicalAnd : Bool :=
      match mc with
      | some m => m.logicalOperator == "and"
      | none => false
    let combined : DocumentRow → Bool := fun d =>
      if logicalAnd then filters.all (fun p => p d) else filters.any (fun p => p d)
    some ((docs.filter (fun d => baseEligible datasetId d && combined d)).map (fun d => d.id))

/-! ### Vector-backend adapters

The RAG hit type (core/rag/models/document.py Document) carries page_content
and a metadata map; the subsystem reads only the doc_id, document_id and
score entries of that map, which are modelled as optional fields. -/

/-- A raw hit as returned by the adapters (the RAG Document type), projected
to the metadata entries this subsystem reads. -/
structure RawHit where
  pageContent : String
  docId : Option String
  documentId : Option String
  score : Option Rat
deriving DecidableEq, Repr

/-- The top_k keyword argument as a Python value: an int, or a value of some
other type (the adapters receive it untyped through kwargs). -/
inductive PyTopK where
  | pint (n : Int)
  | pnonint
deriving DecidableEq, Repr

/-- The LIMIT actually applied by a backend for a given top_k value. -/
def pyTopKLimit : PyTopK → Nat
  | .pint n => n.toNat
  | .pnonint => 0

/-- The keyword-configuration bag passed to search_by_hybrid. -/
structure SearchKwargs where
  topK : Option PyTopK
  scoreThreshold : Option Rat
  documentIdsFilter : Option (List String)
deriving DecidableEq, Repr

/-! #### Milvus adapter (core/rag/datasource/vdb/milvus/milvus_vector.py) -/

/-- One entity stored in the Milvus collection: content plus the metadata
entries read downstream, with the fused similarity the server reports as
distance. -/
structure MilvusEntity where
  content : String
  docId : Option String
  documentId : Option String
  distance : Rat
deriving DecidableEq, Repr

/-- The filter expression MilvusVector.search_by_hybrid builds (lines
125-129), modelled by its parsed meaning: the empty string (no filtering)
or a membership constraint over document ids.  The Python guard is
`if document_ids_filter:` so a present-but-empty list is falsy and produces
the empty expression. -/
inductive MilvusFilterExpr where
  | noFilter
  | docIdIn (ids : List String)
deriving DecidableEq, Repr

/-- Filter construction of MilvusVector.search_by_hybrid. -/
def milvusFilter (documentIdsFilter : Option (List String)) : MilvusFilterExpr :=
  match documentIdsFilter with
  | some ids => if ids.isEmpty then .noFilter else .docIdIn ids
  | none => .noFilter

/-- Whether a stored entity satisfies the filter expression on the server. -/
def milvusExprMatch (e : MilvusFilterExpr) (ent : MilvusEntity) : Bool :=
  match e with
  | .noFilter => true
  | .docIdIn ids =>
    match ent.documentId with
    | some v => ids.contains v
    | none => false

/-- Model of the external Milvus server hybrid_search call: both ANN
requests carry the same filter expression and limit, so every returned
entity belongs to the collection, satisfies the expression, and the fused
result list is truncated to the limit.  The fusion weights only reorder
results and are not modelled. -/
def milvusHybridSearch (store : List MilvusEntity) (expr : MilvusFilterExpr)
    (limit : PyTopK) : List MilvusEntity :=
  (store.filter (milvusExprMatch expr)).take (pyTopKLimit limit)

/-- The RAG document built from one Milvus search result, with the score
written into the metadata. -/
def milvusDocOf (r : MilvusEntity) : RawHit :=
  { pageContent := r.content, docId := r.docId, documentId := r.documentId,
    score := some r.distance }

/-- MilvusVector._process_search_results (lines 99-119): keep a result only
when its distance is strictly greater than the score threshold. -/
def processSearchResults (results : List MilvusEntity) (scoreThreshold : Rat) :
    List RawHit :=
  results.filterMap (fun r =>
    if scoreThreshold < r.distance then some (milvusDocOf r) else none)

/-- MilvusVector.search_by_hybrid (lines 121-161).  The Except layer records
that the adapter body contains no validation raise: every execution reaches
the backend query.  top_k defaults to 4 and the score threshold to 0, via
`kwargs.get` and `float(... or 0.0)`. -/
def milvusSearchByHybrid (store : List MilvusEntity) (_query : String)
    (kw : SearchKwargs) : Except String (List RawHit) :=
  let expr := milvusFilter kw.documentIdsFilter
  let limit := kw.topK.getD (.pint 4)
  let results := milvusHybridSearch store expr limit
  .ok (processSearchResults results (kw.scoreThreshold.getD 0))

/-! #### AnalyticDB SQL adapter
(core/rag/datasource/vdb/analyticdb/analyticdb_vector_sql.py) -/

/-- One row of the AnalyticDB collection table, with the cosine distance the
vector operator computes for the current query vector. -/
structure AdbRow where
  id : String
  pageContent : String
  docId : Option String
  documentId : Option String
  distance : Rat
deriving DecidableEq, Repr

/-- The WHERE clause of AnalyticdbVectorBySql.search_by_hybrid (lines 78-82),
modelled by its meaning: WHERE 1=1 alone, or additionally the document-id
IN constraint when the allow-list is truthy.  The Python code concatenates
the AND keyword without a leading space (WHERE 1=1AND ...), which the
AnalyticDB PostgreSQL lexer still tokenizes as 1 = 1 AND. -/
def adbWhereMatch (documentIdsFilter : Option (List String)) (r : AdbRow) : Bool :=
  match documentIdsFilter with
  | some ids =>
    if ids.isEmpty then true
    else
      match r.documentId with
      | some v => ids.contains v
      | none => false
  | none => true

/-- The rows the inner SQL query delivers to the cursor: the table filtered
by the WHERE clause, ordered by distance ascending, LIMIT top_k. -/
def adbCursorRows (table : List AdbRow) (documentIdsFilter : Option (List String))
    (n : Nat) : List AdbRow :=
  ((table.filter (adbWhereMatch documentIdsFilter)).mergeSort
    (fun a b => decide (a.distance ≤ b.distance))).take n

/-- The RAG document built from one cursor row; the outer SELECT reports
score = 1.0 - distance, which is also written into the metadata. -/
def adbDocOf (r : AdbRow) : RawHit :=
  { pageContent := r.pageContent, docId := r.docId, documentId := r.documentId,
    score := some (1 - r.distance) }

/-- AnalyticdbVectorBySql.search_by_hybrid (lines 73-105): validates top_k as
a positive int (fail fast), issues the single ANN SQL query, and keeps a row
only when its similarity 1 - distance is strictly greater than the score
threshold. -/
def adbSearchByHybrid (table : List AdbRow) (_query : String) (kw : SearchKwargs) :
    Except String (List RawHit) :=
  match kw.topK.getD (.pint 4) with
  | .pnonint => .error "top_k must be a positive integer"
  | .pint n =>
    if n ≤ 0 then .error "top_k must be a positive integer"
    else
      let thr := kw.scoreThreshold.getD 0
      .ok ((adbCursorRows table kw.documentIdsFilter n.toNat).filterMap
        (fun r => if thr < 1 - r.distance then some (adbDocOf r) else none))

/-! #### AnalyticDB OpenAPI adapter
(core/rag/datasource/vdb/analyticdb/analyticdb_vector_openapi.py) -/

/-- One match held by the remote AnalyticDB instance. -/
structure OpenApiMatch where
  pageContent : String
  docId : Option String
  documentId : Option String
  score : Rat
deriving DecidableEq, Repr

/-- The QueryCollectionDataRequest fields relevant to retrieval.  The filter
field is the backend-side restriction the request asks for. -/
structure QueryCollectionDataRequest where
  topK : PyTopK
  filterExpr : Option (List String)
deriving DecidableEq, Repr

/-- Request construction in AnalyticdbVectorOpenAPI.search_by_hybrid (lines
66-82): top_k is read from kwargs with default 4, and filter is the literal
None; the document_ids_filter keyword argument is never read. -/
def openapiBuildRequest (kw : SearchKwargs) : QueryCollectionDataRequest :=
  { topK := kw.topK.getD (.pint 4), filterExpr := none }

/-- Model of the remote query_collection_data call: matches restricted by the
filter of the request (unrestricted when the filter is None), truncated to
top_k. -/
def openapiQueryCollectionData (store : List OpenApiMatch)
    (req : QueryCollectionDataRequest) : List OpenApiMatch :=
  (match req.filterExpr with
    | some ids =>
      store.filter (fun (m : OpenApiMatch) =>
        match m.documentId with
        | some v => ids.contains v
        | none => false)
    | none => store).take (pyTopKLimit req.topK)

/-- The RAG document built from one OpenAPI match. -/
def openapiDocOf (m : OpenApiMatch) : RawHit :=
  { pageContent := m.pageContent, docId := m.docId, documentId := m.documentId,
    score := some m.score }

/-- AnalyticdbVectorOpenAPI.search_by_hybrid (lines 66-96): issue the
request, keep a match only when its score is strictly greater than the
threshold, then sort the kept documents by score descending. -/
def openapiSearchByHybrid (store : List OpenApiMatch) (_query : String)
    (kw : SearchKwargs) : List RawHit :=
  ((openapiQueryCollectionData store (openapiBuildRequest kw)).filterMap
    (fun m => if kw.scoreThreshold.getD 0 < m.score then some (openapiDocOf m) else none)).mergeSort
    (fun a b => decide (b.score.getD 0 ≤ a.score.getD 0))

/-! ### Retrieval orchestrator
RetrievalService.retrieve (core/rag/datasource/retrieval_service.py, lines
16-48) for a dataset whose backend is Milvus (the vector factory resolves
the adapter; the dataset is modelled as present). -/

/-- RetrievalService.escape_query_for_search: escape embedded double quotes. -/
def escapeQueryForSearch (q : String) : String :=
  q.replace "\x22" "\x5c\x22"

/-- RetrievalService.retrieve: an empty query short-circuits to the empty
list, otherwise the escaped query is handed to the adapter together with
top_k, score_threshold and document_ids_filter. -/
def retrievalServiceRetrieve (store : List MilvusEntity) (query : String)
    (kw : SearchKwargs) : Except String (List RawHit) :=
  if query = "" then .ok []
  else milvusSearchByHybrid store (escapeQueryForSearch query) kw

/-- The retrieval_setting dict of DatasetService.retrieve. -/
structure RetrievalSetting where
  topK : Option PyTopK
  scoreThreshold : Option Rat
deriving DecidableEq, Repr

/-- The retrieval core of DatasetService.retrieve (services/dataset_service.py,
lines 44-50): pull top_k (default 2) and score_threshold (default 0) from the
retrieval setting, compile the metadata condition to a document-id filter and
run the hybrid search. -/
def datasetServiceRetrieveHits (docs : List DocumentRow) (store : List MilvusEntity)
    (datasetId : String) (query : String) (rs : RetrievalSetting)
    (mc : Option MetadataCondition) : Except String (List RawHit) :=
  retrievalServiceRetrieve store query
    { topK := some (rs.topK.getD (.pint 2)),
      scoreThreshold := some (rs.scoreThreshold.getD 0),
      documentIdsFilter := get_document_id_filter docs datasetId mc }

/-! ### Result reconciliation
RetrievalService.format_retrieval_documents (core/rag/datasource/
retrieval_service.py, lines 55-194).  The relational rows it consults are
modelled below; SQLAlchemy first() queries become first-match searches. -/

/-- The doc_form of a canonical document: the parent-child (hierarchical)
index form, or a flat form such as text_model. -/
inductive DocForm where
  | parentChildIndex
  | textModel
deriving DecidableEq, Repr

/-- Canonical Document row restricted to the columns format_retrieval_documents
loads (id, name, doc_form, dataset_id; doc_metadata and data_source_type are
carried opaquely downstream and omitted). -/
structure DatasetDocumentRow where
  id : String
  name : String
  docForm : DocForm
  datasetId : String
deriving DecidableEq, Repr

/-- DocumentSegment row restricted to the columns this subsystem reads. -/
structure SegmentRow where
  id : String
  datasetId : String
  documentId : String
  enabled : Bool
  status : String
  indexNodeId : Option String
  content : String
  answer : Option String
deriving DecidableEq, Repr

/-- ChildChunk row restricted to the columns this subsystem reads. -/
structure ChildChunkRow where
  id : String
  indexNodeId : Option String
  segmentId : String
  content : String
  position : Int
deriving DecidableEq, Repr

/-- The relational store consulted during reconciliation. -/
structure RagDB where
  datasetDocuments : List DatasetDocumentRow
  segments : List SegmentRow
  childChunks : List ChildChunkRow
deriving DecidableEq, Repr

/-- Lookup of the dataset_documents batch dict by document id. -/
def findDatasetDocument (db : RagDB) (documentId : String) : Option DatasetDocumentRow :=
  db.datasetDocuments.find? (fun d => d.id == documentId)

/-- ChildChunk query by index_node_id; a missing doc_id compares as SQL NULL
and matches no row. -/
def findChildChunk (db : RagDB) (nodeId : Option String) : Option ChildChunkRow :=
  match nodeId with
  | none => none
  | some nid => db.childChunks.find? (fun c => c.indexNodeId == some nid)

/-- DocumentSegment query of the hierarchical branch: by dataset, enabled,
status completed and segment id. -/
def findSegmentById (db : RagDB) (datasetId segId : String) : Option SegmentRow :=
  db.segments.find? (fun s =>
    s.datasetId == datasetId && s.enabled && s.status == "completed" && s.id == segId)

/-- DocumentSegment query of the flat branch: by dataset, enabled, status
completed and index_node_id. -/
def findSegmentByNode (db : RagDB) (datasetId nodeId : String) : Option SegmentRow :=
  db.segments.find? (fun s =>
    s.datasetId == datasetId && s.enabled && s.status == "completed" &&
      s.indexNodeId == some nodeId)

/-- The child-chunk detail dict built for one hierarchical hit (id, content,
position, score with default 0). -/
structure ChildChunkDetail where
  id : String
  content : String
  position : Int
  score : Rat
deriving DecidableEq, Repr

/-- A reconciliation record before child-chunk information is attached:
the records list entries of the Python code (flat records carry a score key,
hierarchical ones do not). -/
structure RecRecord where
  document : DatasetDocumentRow
  segment : SegmentRow
  score : Option Rat
deriving DecidableEq, Repr

/-- One value of the segment_child_map: accumulated max_score and child
chunk details for a segment. -/
structure MapEntry where
  maxScore : Rat
  childChunks : List ChildChunkDetail
deriving DecidableEq, Repr

/-- The mutable state of the processing loop. -/
structure FmtState where
  records : List RecRecord
  includeSegmentIds : List String
  segmentChildMap : List (String × MapEntry)
deriving DecidableEq, Repr

/-- The empty loop state. -/
def initFmtState : FmtState := { records := [], includeSegmentIds := [], segmentChildMap := [] }

/-- Association-list read of segment_child_map. -/
def alistGet (m : List (String × MapEntry)) (k : String) : Option MapEntry :=
  (m.find? (fun p => p.1 == k)).map (fun p => p.2)

/-- Association-list in-place update of segment_child_map. -/
def alistUpdate (m : List (String × MapEntry)) (k : String) (f : MapEntry → MapEntry) :
    List (String × MapEntry) :=
  m.map (fun p => if p.1 == k then (p.1, f p.2) else p)

/-- The detail dict for a chunk and a hit: score defaults to 0 when the hit
metadata has no score. -/
def childDetailOf (chunk : ChildChunkRow) (h : RawHit) : ChildChunkDetail :=
  { id := chunk.id, content := chunk.content, position := chunk.position,
    score := h.score.getD 0 }

/-- How one hit is dispatched by the per-hit branching of
format_retrieval_documents: dropped, a hierarchical child-chunk match, or a
flat segment match. -/
inductive HitClass where
  | skip
  | hier (dd : DatasetDocumentRow) (seg : SegmentRow) (d : ChildChunkDetail)
  | flat (dd : DatasetDocumentRow) (seg : SegmentRow) (score : Option Rat)
deriving DecidableEq, Repr

/-- The branch/continue structure of the per-hit loop body (lines 87-183):
resolve the owning document, then branch on its doc_form; every failed
lookup drops the hit; the flat branch additionally drops a falsy doc_id. -/
def classifyHit (db : RagDB) (h : RawHit) : HitClass :=
  match h.documentId with
  | none => .skip
  | some documentId =>
    match findDatasetDocument db documentId with
    | none => .skip
    | some dd =>
      if dd.docForm = .parentChildIndex then
        match findChildChunk db h.docId with
        | none => .skip
        | some chunk =>
          match findSegmentById db dd.datasetId chunk.segmentId with
          | none => .skip
          | some seg => .hier dd seg (childDetailOf chunk h)
      else
        match h.docId with
        | none => .skip
        | some nid =>
          if nid = "" then .skip
          else
            match findSegmentByNode db dd.datasetId nid with
            | none => .skip
            | some seg => .flat dd seg h.score

/-- The subsequent-hit update of the hierarchical branch: append the child
detail to the existing map entry and fold the running max score. -/
def hierGrow (st : FmtState) (segId : String) (d : ChildChunkDetail) : FmtState :=
  { records := st.records,
    includeSegmentIds := st.includeSegmentIds,
    segmentChildMap := alistUpdate st.segmentChildMap segId (fun e =>
      { maxScore := max e.maxScore d.score, childChunks := e.childChunks ++ [d] }) }

/-- The first-occurrence update of the hierarchical branch: new record, new
include id, new one-element map entry initialized with the hit score. -/
def hierNew (st : FmtState) (dd : DatasetDocumentRow) (seg : SegmentRow)
    (d : ChildChunkDetail) : FmtState :=
  { records := st.records ++ [{ document := dd, segment := seg, score := none }],
    includeSegmentIds := st.includeSegmentIds ++ [seg.id],
    segmentChildMap := st.segmentChildMap ++
      [(seg.id, { maxScore := d.score, childChunks := [d] })] }

/-- The flat-branch update: unconditionally append a record carrying the hit
score and add the segment id to the include set (which the flat branch never
consults). -/
def flatNew (st : FmtState) (dd : DatasetDocumentRow) (seg : SegmentRow)
    (sc : Option Rat) : FmtState :=
  { records := st.records ++ [{ document := dd, segment := seg, score := sc }],
    includeSegmentIds := st.includeSegmentIds ++ [seg.id],
    segmentChildMap := st.segmentChildMap }

/-- The state update of the loop body for one hit.  The error case is the
Python KeyError raised when segment_child_map is indexed for a segment that
was entered into include_segment_ids by the flat branch only. -/
def processHit (db : RagDB) (st : FmtState) (h : RawHit) : Except Unit FmtState :=
  match classifyHit db h with
  | .skip => .ok st
  | .hier dd seg d =>
    if st.includeSegmentIds.contains seg.id then
      match alistGet st.segmentChildMap seg.id with
      | none => .error ()
      | some _ => .ok (hierGrow st seg.id d)
    else .ok (hierNew st dd seg d)
  | .flat dd seg sc => .ok (flatNew st dd seg sc)

/-- The processing loop over all hits. -/
def runHits (db : RagDB) (st : FmtState) (hits : List RawHit) : Except Unit FmtState :=
  match hits with
  | [] => .ok st
  | h :: hs =>
    match processHit db st h with
    | .error e => .error e
    | .ok st' => runHits db st' hs

/-- The reconciliation output type (RetrievalSegments of
core/rag/embedding/retrieval.py). -/
structure RetrievalSegments where
  document : DatasetDocumentRow
  segment : SegmentRow
  childChunks : Option (List ChildChunkDetail)
  score : Option Rat
deriving DecidableEq, Repr

/-- The final pass (lines 185-191): records whose segment id is in
segment_child_map receive the accumulated child chunks and have their score
overridden with max_score. -/
def attachChildInfo (m : List (String × MapEntry)) (r : RecRecord) : RetrievalSegments :=
  match alistGet m r.segment.id with
  | some e =>
    { document := r.document, segment := r.segment,
      childChunks := some e.childChunks, score := some e.maxScore }
  | none =>
    { document := r.document, segment := r.segment,
      childChunks := none, score := r.score }

/-- RetrievalService.format_retrieval_documents: empty inputs and an empty
collected document-id set short-circuit to the empty list; otherwise the
loop runs and child information is attached. -/
def format_retrieval_documents (db : RagDB) (hits : List RawHit) :
    Except Unit (List RetrievalSegments) :=
  if hits.isEmpty then .ok []
  else if (hits.filterMap (fun h => h.documentId)).isEmpty then .ok []
  else
    match runHits db initFmtState hits with
    | .error e => .error e
    | .ok st => .ok (st.records.map (attachChildInfo st.segmentChildMap))

/-- The segment id and child detail a hit contributes through the
hierarchical branch, if any. -/
def resolveHier (db : RagDB) (h : RawHit) : Option (String × ChildChunkDetail) :=
  match classifyHit db h with
  | .hier _dd seg d => some (seg.id, d)
  | _ => none

/-- All child-chunk details the hits of a list contribute to a given
segment, in hit order. -/
def hierDetails (db : RagDB) (hits : List RawHit) (s : String) : List ChildChunkDetail :=
  hits.filterMap (fun h =>
    match resolveHier db h with
    | some (sid, d) => if sid = s then some d else none
    | none => none)

/-! ### Response formatter
DatasetService.format_retrieve_response (services/dataset_service.py, lines
63-104) and HitTestingService.format_retrieve_response
(services/hit_testing_service.py, lines 42-94).  Both shape records into
source dicts, sort by score descending and assign 1-based positions; they
differ only in how the dataset and document rows are obtained.  The signed
content accessor get_sign_content is consumed as an opaque function. -/

/-- The externally visible source dict, projected to the fields the claims
mention (the remaining metadata fields are carried verbatim from the rows). -/
structure SourceEntry where
  datasetId : String
  datasetName : String
  documentId : String
  documentName : String
  segmentId : String
  title : String
  content : String
  score : Rat
  position : Nat
deriving DecidableEq, Repr

/-- The content string of a source dict: Q and A form when the segment has a
truthy answer, else the signed content alone. -/
def sourceContent (sign : SegmentRow → String) (seg : SegmentRow) : String :=
  match seg.answer with
  | some ans =>
    if ans = "" then sign seg
    else "question:" ++ sign seg ++ " \nanswer:" ++ ans
  | none => sign seg

/-- One source dict of DatasetService.format_retrieve_response; the score is
record.score or 0.0 and the position is assigned later. -/
def formatSource (sign : SegmentRow → String) (datasetId datasetName : String)
    (r : RetrievalSegments) : SourceEntry :=
  { datasetId := datasetId, datasetName := datasetName,
    documentId := r.document.id, documentName := r.document.name,
    segmentId := r.segment.id, title := r.document.name,
    content := sourceContent sign r.segment,
    score := r.score.getD 0, position := 0 }

/-- The shared tail of both formatters: sort the source dicts by score
descending (Python sorted with reverse=True is stable; the key treats a
missing score as 0, though every dict was built with a score) and assign
1-based positions in sorted order. -/
def sortAndPosition (resources : List SourceEntry) : List SourceEntry :=
  if resources.isEmpty then resources
  else
    let sorted := resources.mergeSort (fun a b => decide (b.score ≤ a.score))
    sorted.enum.map (fun p => { p.2 with position := p.1 + 1 })

/-- DatasetService.format_retrieve_response for the reconciled records: the
dataset is the one passed in and record.document is always present, so every
record yields a source dict. -/
def datasetFormatRetrieveResponse (sign : SegmentRow → String)
    (datasetId datasetName : String) (records : List RetrievalSegments) :
    List SourceEntry :=
  sortAndPosition (records.map (formatSource sign datasetId datasetName))

/-- A Document row as re-queried by HitTestingService.format_retrieve_response
(id, name, enabled, archived). -/
structure DbDocumentRow where
  id : String
  name : String
  enabled : Bool
  archived : Bool
deriving DecidableEq, Repr

/-- HitTestingService.format_retrieve_response: for each record the dataset
row (by the segment dataset_id) and the enabled, non-archived document row
(by the segment document_id) are looked up; a record missing either is
skipped; then the shared sort-and-position tail runs. -/
def hitTestingFormatRetrieveResponse (sign : SegmentRow → String)
    (datasetNames : List (String × String)) (dbDocs : List DbDocumentRow)
    (records : List RetrievalSegments) : List SourceEntry :=
  sortAndPosition (records.filterMap (fun r =>
    match datasetNames.find? (fun p => p.1 == r.segment.datasetId),
        dbDocs.find? (fun d => d.id == r.segment.documentId && d.enabled && !d.archived) with
    | some ds, some dd =>
      some { datasetId := ds.1, datasetName := ds.2,
             documentId := dd.id, documentName := dd.name,
             segmentId := r.segment.id, title := dd.name,
             content := sourceContent sign r.segment,
             score := r.score.getD 0, position := 0 }
    | _, _ => none))

/-! ### Permission check
DatasetService.check_dataset_permission (services/dataset_service.py, lines
207-225) and the error taxonomy of DatasetService.retrieve (lines 33-42). -/

/-- The tenant-account role (models/account.py TenantAccountRole), reduced to
the distinction the permission check makes. -/
inductive TenantRole where
  | owner
  | nonOwner
deriving DecidableEq, Repr

/-- Dataset permission scope (models/dataset.py DatasetPermissionEnum). -/
inductive DatasetPermissionScope where
  | onlyMe
  | allTeamMembers
  | partialMembers
deriving DecidableEq, Repr

/-- The account fields the permission check reads. -/
structure AccountRec where
  id : String
  currentTenantId : String
  currentRole : TenantRole
deriving DecidableEq, Repr

/-- The dataset fields the permission check reads. -/
structure DatasetRec where
  id : String
  tenantId : String
  permission : DatasetPermissionScope
  createdBy : String
deriving DecidableEq, Repr

/-- One DatasetPermission grant row. -/
structure PermissionGrant where
  datasetId : String
  accountId : String
deriving DecidableEq, Repr

/-- DatasetService.check_dataset_permission: tenant mismatch always raises;
a caller whose current role is OWNER passes all further checks; otherwise an
only_me dataset requires the creator and a partial_members dataset requires
the creator or an explicit grant row. -/
def check_dataset_permission (grants : List PermissionGrant) (dataset : DatasetRec)
    (user : AccountRec) : Except String Unit :=
  if dataset.tenantId ≠ user.currentTenantId then
    .error "You do not have permission to access this dataset."
  else if user.currentRole ≠ .owner then
    if dataset.permission = .onlyMe ∧ dataset.createdBy ≠ user.id then
      .error "You do not have permission to access this dataset."
    else if dataset.permission = .partialMembers then
      if dataset.createdBy ≠ user.id then
        if (grants.find? (fun g => g.datasetId == dataset.id && g.accountId == user.id)).isNone then
          .error "You do not have permission to access this dataset."
        else .ok ()
      else .ok ()
    else .ok ()
  else .ok ()

/-- The failure categories DatasetService.retrieve can raise before searching:
NotFound for a missing dataset, Forbidden wrapping a permission error. -/
inductive RetrieveFailure where
  | notFound
  | forbidden (msg : String)
deriving DecidableEq, Repr

/-- The lookup plus permission-check head of DatasetService.retrieve (lines
33-42): a missing dataset raises NotFound, a NoPermissionError is re-raised
as Forbidden. -/
def datasetServiceRetrieveCheck (datasets : List DatasetRec)
    (grants : List PermissionGrant) (datasetId : String) (account : AccountRec) :
    Except RetrieveFailure DatasetRec :=
  match datasets.find? (fun d => d.id == datasetId) with
  | none => .error .notFound
  | some ds =>
    match check_dataset_permission grants ds account with
    | .error m => .error (.forbidden m)
    | .ok _ => .ok ds

/-! ### Python call binding for HitTestingService.retrieve
HitTestingService.retrieve (services/hit_testing_service.py, lines 17-40)
invokes RetrievalService.retrieve purely with keyword arguments; Python
binds keywords against the callee parameter list before executing the body,
raising TypeError on an unexpected keyword or a missing required argument. -/

/-- A formal parameter of a Python function: its name and whether it has a
default value. -/
structure PyParam where
  name : String
  hasDefault : Bool
deriving DecidableEq, Repr

/-- The parameter list of RetrievalService.retrieve
(core/rag/datasource/retrieval_service.py, lines 16-24): dataset, query and
top_k are required; score_threshold and document_ids_filter have defaults. -/
def retrievalServiceRetrieveParams : List PyParam :=
  [{ name := "dataset", hasDefault := false },
   { name := "query", hasDefault := false },
   { name := "top_k", hasDefault := false },
   { name := "score_threshold", hasDefault := true },
   { name := "document_ids_filter", hasDefault := true }]

/-- The keyword names of the call in HitTestingService.retrieve (lines
28-35). -/
def hitTestingCallKeywords : List String :=
  ["dataset_id", "query", "top_k", "score_threshold", "document_ids_filter"]

/-- The TypeError conditions of Python keyword binding. -/
inductive PyCallError where
  | unexpectedKeyword (kw : String)
  | missingArgument (name : String)
deriving DecidableEq, Repr

/-- Python keyword binding against a parameter list: an unknown keyword or
an unbound required parameter raises TypeError. -/
def bindKeywordArgs (params : List PyParam) (kwargs : List String) :
    Except PyCallError Unit :=
  match kwargs.find? (fun kw => !params.any (fun p => p.name == kw)) with
  | some kw => .error (.unexpectedKeyword kw)
  | none =>
    match (params.filter (fun p => !p.hasDefault)).find? (fun p => !kwargs.contains p.name) with
    | some p => .error (.missingArgument p.name)
    | none => .ok ()

/-- The retrieval head of HitTestingService.retrieve: the argument
expressions (including the document-id filter compilation) are evaluated
first, then the keyword-bound call of RetrievalService.retrieve is
attempted; on successful binding the hybrid search would run. -/
def hitTestingRetrieve (docs : List DocumentRow) (store : List MilvusEntity)
    (dataset : DatasetRec) (query : String) (rs : RetrievalSetting)
    (mc : Option MetadataCondition) : Except PyCallError (Except String (List RawHit)) :=
  let filterIds := get_document_id_filter docs dataset.id mc
  match bindKeywordArgs retrievalServiceRetrieveParams hitTestingCallKeywords with
  | .error e => .error e
  | .ok _ =>
    .ok (retrievalServiceRetrieve store query
      { topK := some (rs.topK.getD (.pint 2)),
        scoreThreshold := some (rs.scoreThreshold.getD 0),
        documentIdsFilter := filterIds })

/-- The loop invariant of the reconciliation processing loop: after the
hits of pre have been processed, each segment_child_map entry holds exactly
the hierarchical contributions of pre to its segment, with max_score the
running maximum (first contribution initializes, later ones fold max), a
record exists for each mapped segment, and mapped segments are in
include_segment_ids. -/
def StInv (db : RagDB) (pre : List RawHit) (st : FmtState) : Prop :=
  (∀ s e, alistGet st.segmentChildMap s = some e →
      e.childChunks = hierDetails db pre s ∧
      (∃ d ds, e.childChunks = d :: ds ∧
        e.maxScore = ds.foldl (fun m x => max m x.score) d.score) ∧
      (∃ r ∈ st.records, r.segment.id = s)) ∧
  (∀ s, alistGet st.segmentChildMap s = none → hierDetails db pre s = []) ∧
  (∀ s, (alistGet st.segmentChildMap s).isSome → s ∈ st.includeSegmentIds)

/-! ### Decidable equality on Except, for concrete evaluations -/

instance {e a : Type} [DecidableEq e] [DecidableEq a] : DecidableEq (Except e a) := fun x y =>
  match x, y with
  | .ok u, .ok v =>
    if h : u = v then .isTrue (congrArg Except.ok h)
    else .isFalse (fun hh => h (Except.ok.inj hh))
  | .error u, .error v =>
    if h : u = v then .isTrue (congrArg Except.error h)
    else .isFalse (fun hh => h (Except.error.inj hh))
  | .ok _, .error _ => .isFalse (fun hh => Except.noConfusion hh)
  | .error _, .ok _ => .isFalse (fun hh => Except.noConfusion hh)

/-! ### Concrete scenarios used by counterexamples and witnesses -/

/-- A completed, enabled, non-archived document whose author metadata does
not match the condition below. -/
def c1doc : DocumentRow :=
  { id := "d9", datasetId := "ds1", indexingStatus := "completed",
    enabled := true, archived := false, docMetadata := [("author", .vstr "bob")] }

/-- A metadata condition with one recognized equality condition that no
document of the dataset satisfies. -/
def c1mc : MetadataCondition :=
  { logicalOperator := "and",
    conditions := [{ name := "author", comparisonOperator := "=", value := some (.vstr "alice") }] }

/-- A raw vector hit held by the backend (a stale or unfiltered entry). -/
def c1ent : MilvusEntity :=
  { content := "hello", docId := some "n1", documentId := some "d9", distance := 1 }

/-- A flat-form document for the duplicate-segment scenario. -/
def c2dd : DatasetDocumentRow :=
  { id := "d1", name := "doc", docForm := .textModel, datasetId := "ds1" }

/-- The single flat segment both raw hits resolve to. -/
def c2seg : SegmentRow :=
  { id := "s1", datasetId := "ds1", documentId := "d1", enabled := true,
    status := "completed", indexNodeId := some "n1", content := "seg text", answer := none }

/-- The relational store of the duplicate-segment scenario. -/
def c2db : RagDB := { datasetDocuments := [c2dd], segments := [c2seg], childChunks := [] }

/-- One flat raw hit on index node n1. -/
def c2hit : RawHit :=
  { pageContent := "x", docId := some "n1", documentId := some "d1", score := some 1 }

/-- A parent-child document for the hierarchical max-score scenario. -/
def c3dd : DatasetDocumentRow :=
  { id := "d1", name := "doc one", docForm := .parentChildIndex, datasetId := "ds1" }

/-- The parent segment owning the two child chunks. -/
def c3seg : SegmentRow :=
  { id := "s1", datasetId := "ds1", documentId := "d1", enabled := true,
    status := "completed", indexNodeId := none, content := "parent segment", answer := none }

/-- First child chunk, indexed under node n1. -/
def c3ch1 : ChildChunkRow :=
  { id := "c1", indexNodeId := some "n1", segmentId := "s1", content := "child one", position := 1 }

/-- Second child chunk, indexed under node n2. -/
def c3ch2 : ChildChunkRow :=
  { id := "c2", indexNodeId := some "n2", segmentId := "s1", content := "child two", position := 2 }

/-- The relational store of the hierarchical scenario. -/
def c3db : RagDB :=
  { datasetDocuments := [c3dd], segments := [c3seg], childChunks := [c3ch1, c3ch2] }

/-- Two raw hits resolving to the two child chunks, scores 2 and 9. -/
def c3hits : List RawHit :=
  [{ pageContent := "x", docId := some "n1", documentId := some "d1", score := some 2 },
   { pageContent := "y", docId := some "n2", documentId := some "d1", score := some 9 }]

/-- The detail dict of the first hit. -/
def c3det1 : ChildChunkDetail := { id := "c1", content := "child one", position := 1, score := 2 }

/-- The detail dict of the second hit. -/
def c3det2 : ChildChunkDetail := { id := "c2", content := "child two", position := 2, score := 9 }

/-- The accumulated map entry for segment s1. -/
def c3entry : MapEntry := { maxScore := 9, childChunks := [c3det1, c3det2] }

/-- The loop state after both hits. -/
def c3st : FmtState :=
  { records := [{ document := c3dd, segment := c3seg, score := none }],
    includeSegmentIds := ["s1"],
    segmentChildMap := [("s1", c3entry)] }

/-- The reconciliation output of the hierarchical scenario. -/
def c3out : List RetrievalSegments :=
  [{ document := c3dd, segment := c3seg, childChunks := some [c3det1, c3det2], score := some 9 }]

/-- A backend entity for the strict-threshold witness. -/
def w5ent : MilvusEntity :=
  { content := "c", docId := some "n0", documentId := some "dA", distance := 1 }

/-- The keyword bag of the strict-threshold witness. -/
def w5kw : SearchKwargs :=
  { topK := some (.pint 4), scoreThreshold := some 0, documentIdsFilter := none }

/-- A remote match whose document id is outside the allow-list below. -/
def c6m : OpenApiMatch :=
  { pageContent := "content", docId := some "n1", documentId := some "docB", score := 1 }

/-- The keyword bag carrying an allow-list the OpenAPI adapter should apply. -/
def c6kw : SearchKwargs :=
  { topK := some (.pint 4), scoreThreshold := some 0, documentIdsFilter := some ["docA"] }

/-- An only_me dataset created by u1. -/
def c7ds : DatasetRec :=
  { id := "ds1", tenantId := "t1", permission := .onlyMe, createdBy := "u1" }

/-- A tenant-owner account that is not the creator of c7ds. -/
def c7owner : AccountRec := { id := "u2", currentTenantId := "t1", currentRole := .owner }

/-- A partial_members dataset created by u1. -/
def w7ds : DatasetRec :=
  { id := "ds2", tenantId := "t1", permission := .partialMembers, createdBy := "u1" }

/-- A non-owner account holding a grant for w7ds. -/
def w7u : AccountRec := { id := "u3", currentTenantId := "t1", currentRole := .nonOwner }

/-- The grant rows of the permission witness. -/
def w7grants : List PermissionGrant := [{ datasetId := "ds2", accountId := "u3" }]

/-- A backend entity for the top_k scenarios. -/
def c8ent : MilvusEntity := { content := "c", docId := none, documentId := none, distance := 1 }

/-- A dataset record for the hit-testing call scenario. -/
def c9ds : DatasetRec :=
  { id := "ds9", tenantId := "t1", permission := .allTeamMembers, createdBy := "u1" }

/-- A keyword bag with the invalid top_k value 0. -/
def c8kw : SearchKwargs :=
  { topK := some (.pint 0), scoreThreshold := some 0, documentIdsFilter := none }

/-- A condition whose comparison operator the compiler does not recognize. -/
def c10cond : Condition := { name := "field", comparisonOperator := "unknown-op", value := none }

/-- A metadata condition consisting only of the unrecognized condition. -/
def c10mc : MetadataCondition := { logicalOperator := "or", conditions := [c10cond] }

/-- A backend entity for the unrestricted-search witness. -/
def c10ent : MilvusEntity :=
  { content := "m", docId := some "n", documentId := some "d", distance := 1 }

/-- A keyword bag without a document-id filter. -/
def c10kw : SearchKwargs :=
  { topK := some (.pint 4), scoreThreshold := some 0, documentIdsFilter := none }

/-! ### Claim theorems -/

/-- Claim C1 (code-bug evidence): with a non-empty metadata_condition that
zero documents match, get_document_id_filter compiles the explicit empty
allow-list, but the Milvus adapter guard treats the empty list as falsy and
builds the empty filter expression, so the retrieval returns the raw backend
hit instead of the empty list the claim requires. -/
theorem C1_empty_allow_list_treated_as_no_filter :
    get_document_id_filter [c1doc] "ds1" (some c1mc) = some [] ∧
    milvusFilter (some []) = MilvusFilterExpr.noFilter ∧
    datasetServiceRetrieveHits [c1doc] [c1ent] "ds1" "q"
      { topK := none, scoreThreshold := none } (some c1mc) = Except.ok [milvusDocOf c1ent] ∧
    [milvusDocOf c1ent] ≠ ([] : List RawHit) :=
  ⟨by decide, by decide, by decide, by decide⟩

/-- Claim C2 (code-bug evidence): two raw hits resolving to the same flat
Segment produce two output records with the same segment id, violating the
dedupe invariant (the flat branch never consults include_segment_ids). -/
theorem C2_flat_form_duplicate_segment_records :
    Except.map (fun rs => rs.map (fun r => r.segment.id))
      (format_retrieval_documents c2db [c2hit, c2hit]) = Except.ok ["s1", "s1"] ∧
    ¬ (["s1", "s1"] : List String).Nodup :=
  ⟨by decide, by decide⟩

/-- Claim C6 (code-bug evidence): the OpenAPI adapter builds its backend
request with filter None regardless of the document_ids_filter keyword, so
a hit whose document id is outside the allow-list is returned. -/
theorem C6_openapi_ignores_document_ids_filter :
    (∀ kw : SearchKwargs, (openapiBuildRequest kw).filterExpr = none) ∧
    c6kw.documentIdsFilter = some ["docA"] ∧
    openapiSearchByHybrid [c6m] "q" c6kw = [openapiDocOf c6m] ∧
    (openapiDocOf c6m).documentId = some "docB" ∧
    "docB" ∉ (["docA"] : List String) := by
  refine ⟨fun kw => rfl, by decide, ?_, by decide, by decide⟩
  have h1 : openapiQueryCollectionData [c6m] (openapiBuildRequest c6kw) = [c6m] := by decide
  have h2 : ([c6m].filterMap
      (fun m => if c6kw.scoreThreshold.getD 0 < m.score then some (openapiDocOf m) else none)) =
      [openapiDocOf c6m] := by decide
  show ((openapiQueryCollectionData [c6m] (openapiBuildRequest c6kw)).filterMap
      (fun m => if c6kw.scoreThreshold.getD 0 < m.score then some (openapiDocOf m) else none)).mergeSort
      (fun a b => decide (b.score.getD 0 ≤ a.score.getD 0)) = [openapiDocOf c6m]
  rw [h1, h2, List.mergeSort_singleton]

/-- Claim C7 (counterexample): a tenant-owner account that is not the
creator still passes the permission check on an only_me dataset, so the
claim that only_me retrieval succeeds only for the creator is false. -/
theorem C7_owner_role_bypasses_only_me :
    check_dataset_permission [] c7ds c7owner = Except.ok () ∧
    c7ds.permission = .onlyMe ∧
    c7ds.tenantId = c7owner.currentTenantId ∧
    c7ds.createdBy ≠ c7owner.id :=
  ⟨by decide, by decide, by decide, by decide⟩

/-- Claim C8 (counterexample): the Milvus adapter performs no top_k
validation; with top_k = 0 it returns normally (Except.ok) instead of
raising a validation error before the backend query. -/
theorem C8_milvus_accepts_invalid_top_k :
    milvusSearchByHybrid [c8ent] "q" c8kw = Except.ok [] ∧
    c8kw.topK = some (.pint 0) ∧
    ∀ msg, milvusSearchByHybrid [c8ent] "q" c8kw ≠ Except.error msg := by
  refine ⟨by decide, by decide, fun msg h => ?_⟩
  rw [show milvusSearchByHybrid [c8ent] "q" c8kw = Except.ok [] from by decide] at h
  exact Except.noConfusion h

/-- Claim C9: HitTestingService.retrieve invokes RetrievalService.retrieve
with the keyword dataset_id, which is not among the parameters (dataset,
query, top_k, score_threshold, document_ids_filter); Python keyword binding
therefore raises TypeError for every input and the hit-testing retrieval
path never returns a result list. -/
theorem C9_hit_testing_retrieve_raises_type_error :
    ("dataset_id" ∉ retrievalServiceRetrieveParams.map (fun p => p.name)) ∧
    ∀ (docs : List DocumentRow) (store : List MilvusEntity) (dataset : DatasetRec)
      (query : String) (rs : RetrievalSetting) (mc : Option MetadataCondition),
      hitTestingRetrieve docs store dataset query rs mc =
        Except.error (.unexpectedKeyword "dataset_id") := by
  refine ⟨by decide, fun docs store dataset query rs mc => ?_⟩
  rfl

/-- Claim C9 witness: the theorem applied to a concrete dataset and empty
stores. -/
theorem C9_hit_testing_retrieve_raises_type_error_witness :
    hitTestingRetrieve [] [] c9ds "q" { topK := none, scoreThreshold := none } none =
      Except.error (.unexpectedKeyword "dataset_id") :=
  C9_hit_testing_retrieve_raises_type_error.2 [] [] c9ds "q"
    { topK := none, scoreThreshold := none } none

/-! ### Sorting and position lemmas for the response formatter -/

/-- An error value is never an ok value. -/
theorem exceptErrorNeOk {e a : Type} (x : e) (y : a) :
    (Except.error x : Except e a) ≠ Except.ok y := fun h => Except.noConfusion h

/-- Pairwise relations transfer from a list to its enumeration. -/
theorem pairwise_enum_of_pairwise {α : Type} {R : α → α → Prop} {l : List α}
    (h : List.Pairwise R l) :
    List.Pairwise (fun p q : Nat × α => R p.2 q.2) l.enum := by
  have h2 : List.Pairwise R (l.enum.map Prod.snd) := by
    rw [List.enum_map_snd]
    exact h
  exact List.pairwise_map.mp h2

/-- The shared formatter tail produces a score-descending list. -/
theorem sortAndPosition_sorted (l : List SourceEntry) :
    List.Pairwise (fun a b => b.score ≤ a.score) (sortAndPosition l) := by
  unfold sortAndPosition
  split
  · next hnil =>
    rw [List.isEmpty_iff] at hnil
    subst hnil
    exact List.Pairwise.nil
  · have htrans : ∀ a b c : SourceEntry,
        (decide (b.score ≤ a.score)) = true → (decide (c.score ≤ b.score)) = true →
        (decide (c.score ≤ a.score)) = true := by
      intro a b c hab hbc
      rw [decide_eq_true_iff] at *
      exact le_trans hbc hab
    have htotal : ∀ a b : SourceEntry,
        ((decide (b.score ≤ a.score)) || (decide (a.score ≤ b.score))) = true := by
      intro a b
      rcases le_total b.score a.score with h | h <;> simp [h]
    have hs := List.sorted_mergeSort htrans htotal l
    have hp : List.Pairwise (fun a b : SourceEntry => b.score ≤ a.score)
        (l.mergeSort (fun a b => decide (b.score ≤ a.score))) :=
      hs.imp (fun h => by rwa [decide_eq_true_iff] at h)
    rw [List.pairwise_map]
    exact (pairwise_enum_of_pairwise hp).imp (fun h => h)

/-- The shared formatter tail assigns positions 1..N in output order. -/
theorem sortAndPosition_positions (l : List SourceEntry) :
    (sortAndPosition l).map (fun e => e.position) =
      List.range' 1 (sortAndPosition l).length := by
  unfold sortAndPosition
  split
  · next hnil =>
    rw [List.isEmpty_iff] at hnil
    subst hnil
    rfl
  · rw [List.map_map, List.length_map, List.enum_length]
    have h1 : ((List.mergeSort l (fun a b => decide (b.score ≤ a.score))).enum.map
        (fun p => ((fun (p : Nat × SourceEntry) => { p.2 with position := p.1 + 1 }) p).position)) =
        ((List.mergeSort l (fun a b => decide (b.score ≤ a.score))).enum.map
          (fun p => p.1 + 1)) := by
      exact List.map_congr_left (fun p _ => rfl)
    rw [show ((fun (e : SourceEntry) => e.position) ∘
        (fun (p : Nat × SourceEntry) => { p.2 with position := p.1 + 1 })) =
        (fun (p : Nat × SourceEntry) => p.1 + 1) from rfl]
    rw [show (fun (p : Nat × SourceEntry) => p.1 + 1) =
        ((fun i => i + 1) ∘ Prod.fst) from rfl]
    rw [← List.map_map, List.enum_map_fst, List.range'_eq_map_range]
    exact List.map_congr_left (fun i _ => Nat.add_comm i 1)

/-- Claim C4: both response formatters produce a list sorted by score
descending (the sort key treats a missing score as 0, and every source dict
is built with a score) whose position fields are exactly 1..N in sorted
order, with no gaps and no repeats. -/
theorem C4_sorted_scores_and_positions :
    (∀ (sign : SegmentRow → String) (dsId dsName : String)
        (records : List RetrievalSegments),
      List.Pairwise (fun a b => b.score ≤ a.score)
        (datasetFormatRetrieveResponse sign dsId dsName records) ∧
      (datasetFormatRetrieveResponse sign dsId dsName records).map (fun e => e.position) =
        List.range' 1 (datasetFormatRetrieveResponse sign dsId dsName records).length) ∧
    (∀ (sign : SegmentRow → String) (dsNames : List (String × String))
        (dbDocs : List DbDocumentRow) (records : List RetrievalSegments),
      List.Pairwise (fun a b => b.score ≤ a.score)
        (hitTestingFormatRetrieveResponse sign dsNames dbDocs records) ∧
      (hitTestingFormatRetrieveResponse sign dsNames dbDocs records).map (fun e => e.position) =
        List.range' 1 (hitTestingFormatRetrieveResponse sign dsNames dbDocs records).length) :=
  ⟨fun sign dsId dsName records =>
    ⟨sortAndPosition_sorted _, sortAndPosition_positions _⟩,
   fun sign dsNames dbDocs records =>
    ⟨sortAndPosition_sorted _, sortAndPosition_positions _⟩⟩

/-! ### Strict-threshold theorems -/

/-- Unfolding of the SQL adapter when the resolved top_k is a non-int. -/
theorem adbSearchByHybrid_nonint (table : List AdbRow) (q : String) (kw : SearchKwargs)
    (h : kw.topK.getD (.pint 4) = .pnonint) :
    adbSearchByHybrid table q kw = .error "top_k must be a positive integer" := by
  rw [adbSearchByHybrid, h]

/-- Unfolding of the SQL adapter when the resolved top_k is an int. -/
theorem adbSearchByHybrid_pint (table : List AdbRow) (q : String) (kw : SearchKwargs)
    (n : Int) (h : kw.topK.getD (.pint 4) = .pint n) :
    adbSearchByHybrid table q kw =
      if n ≤ 0 then .error "top_k must be a positive integer"
      else .ok ((adbCursorRows table kw.documentIdsFilter n.toNat).filterMap
        (fun r => if kw.scoreThreshold.getD 0 < 1 - r.distance then some (adbDocOf r)
          else none)) := by
  rw [adbSearchByHybrid, h]

/-- Claim C5: in every implemented adapter the score threshold is a strict
lower bound.  For each adapter: every returned document carries a score
strictly above the threshold (hence a hit scoring exactly the threshold is
never returned), and every backend-delivered hit scoring strictly above the
threshold is retained. -/
theorem C5_strict_score_threshold :
    (∀ (store : List MilvusEntity) (q : String) (kw : SearchKwargs) (docs : List RawHit),
        milvusSearchByHybrid store q kw = Except.ok docs →
        (∀ d ∈ docs, ∃ sc, d.score = some sc ∧ kw.scoreThreshold.getD 0 < sc) ∧
        (∀ r ∈ milvusHybridSearch store (milvusFilter kw.documentIdsFilter)
            (kw.topK.getD (.pint 4)),
          kw.scoreThreshold.getD 0 < r.distance → milvusDocOf r ∈ docs) ∧
        (∀ r : MilvusEntity, r.distance = kw.scoreThreshold.getD 0 → milvusDocOf r ∉ docs)) ∧
    (∀ (table : List AdbRow) (q : String) (kw : SearchKwargs) (docs : List RawHit),
        adbSearchByHybrid table q kw = Except.ok docs →
        (∀ d ∈ docs, ∃ sc, d.score = some sc ∧ kw.scoreThreshold.getD 0 < sc) ∧
        (∀ n : Int, kw.topK.getD (.pint 4) = .pint n →
          ∀ r ∈ adbCursorRows table kw.documentIdsFilter n.toNat,
            kw.scoreThreshold.getD 0 < 1 - r.distance → adbDocOf r ∈ docs) ∧
        (∀ r : AdbRow, 1 - r.distance = kw.scoreThreshold.getD 0 → adbDocOf r ∉ docs)) ∧
    (∀ (store : List OpenApiMatch) (q : String) (kw : SearchKwargs),
        (∀ d ∈ openapiSearchByHybrid store q kw,
          ∃ sc, d.score = some sc ∧ kw.scoreThreshold.getD 0 < sc) ∧
        (∀ m ∈ openapiQueryCollectionData store (openapiBuildRequest kw),
          kw.scoreThreshold.getD 0 < m.score → openapiDocOf m ∈ openapiSearchByHybrid store q kw) ∧
        (∀ m : OpenApiMatch, m.score = kw.scoreThreshold.getD 0 →
          openapiDocOf m ∉ openapiSearchByHybrid store q kw)) := by
  refine ⟨?_, ?_, ?_⟩
  · intro store q kw docs hok
    have hdocs : docs = processSearchResults
        (milvusHybridSearch store (milvusFilter kw.documentIdsFilter) (kw.topK.getD (.pint 4)))
        (kw.scoreThreshold.getD 0) := (Except.ok.inj hok).symm
    subst hdocs
    refine ⟨?_, ?_, ?_⟩
    · intro d hd
      rw [processSearchResults, List.mem_filterMap] at hd
      obtain ⟨r, _, hr⟩ := hd
      by_cases hlt : kw.scoreThreshold.getD 0 < r.distance
      · rw [if_pos hlt] at hr
        obtain rfl := Option.some.inj hr
        exact ⟨r.distance, rfl, hlt⟩
      · rw [if_neg hlt] at hr
        exact Option.noConfusion hr
    · intro r hr hlt
      rw [processSearchResults, List.mem_filterMap]
      exact ⟨r, hr, if_pos hlt⟩
    · intro r heq hmem
      rw [processSearchResults, List.mem_filterMap] at hmem
      obtain ⟨r2, _, hr2⟩ := hmem
      by_cases hlt : kw.scoreThreshold.getD 0 < r2.distance
      · rw [if_pos hlt] at hr2
        have hinj := Option.some.inj hr2
        have hsc : r2.distance = r.distance :=
          congrArg (fun d : RawHit => d.score.getD 0) hinj
        rw [hsc, heq] at hlt
        exact lt_irrefl _ hlt
      · rw [if_neg hlt] at hr2
        exact Option.noConfusion hr2
  · intro table q kw docs hok
    cases hmatch : kw.topK.getD (.pint 4) with
    | pnonint =>
      rw [adbSearchByHybrid_nonint table q kw hmatch] at hok
      exact absurd hok (exceptErrorNeOk _ _)
    | pint n =>
      rw [adbSearchByHybrid_pint table q kw n hmatch] at hok
      by_cases hn : n ≤ 0
      · rw [if_pos hn] at hok
        exact absurd hok (exceptErrorNeOk _ _)
      · rw [if_neg hn] at hok
        have hdocs : docs = (adbCursorRows table kw.documentIdsFilter n.toNat).filterMap
            (fun r => if kw.scoreThreshold.getD 0 < 1 - r.distance then some (adbDocOf r)
              else none) := (Except.ok.inj hok).symm
        subst hdocs
        refine ⟨?_, ?_, ?_⟩
        · intro d hd
          rw [List.mem_filterMap] at hd
          obtain ⟨r, _, hr⟩ := hd
          by_cases hlt : kw.scoreThreshold.getD 0 < 1 - r.distance
          · rw [if_pos hlt] at hr
            obtain rfl := Option.some.inj hr
            exact ⟨1 - r.distance, rfl, hlt⟩
          · rw [if_neg hlt] at hr
            exact Option.noConfusion hr
        · intro n2 hn2 r hr hlt
          have h2 : n = n2 := PyTopK.pint.inj hn2
          subst h2
          rw [List.mem_filterMap]
          exact ⟨r, hr, if_pos hlt⟩
        · intro r heq hmem
          rw [List.mem_filterMap] at hmem
          obtain ⟨r2, _, hr2⟩ := hmem
          by_cases hlt : kw.scoreThreshold.getD 0 < 1 - r2.distance
          · rw [if_pos hlt] at hr2
            have hinj := Option.some.inj hr2
            have hsc : 1 - r2.distance = 1 - r.distance :=
              congrArg (fun d : RawHit => d.score.getD 0) hinj
            rw [hsc, heq] at hlt
            exact lt_irrefl _ hlt
          · rw [if_neg hlt] at hr2
            exact Option.noConfusion hr2
  · intro store q kw
    have hperm := List.mergeSort_perm
      ((openapiQueryCollectionData store (openapiBuildRequest kw)).filterMap
        (fun m => if kw.scoreThreshold.getD 0 < m.score then some (openapiDocOf m) else none))
      (fun a b => decide (b.score.getD 0 ≤ a.score.getD 0))
    have hmem : ∀ d : RawHit, d ∈ openapiSearchByHybrid store q kw ↔
        d ∈ (openapiQueryCollectionData store (openapiBuildRequest kw)).filterMap
          (fun m => if kw.scoreThreshold.getD 0 < m.score then some (openapiDocOf m) else none) := by
      intro d
      exact hperm.mem_iff
    refine ⟨?_, ?_, ?_⟩
    · intro d hd
      rw [hmem, List.mem_filterMap] at hd
      obtain ⟨m, _, hm⟩ := hd
      by_cases hlt : kw.scoreThreshold.getD 0 < m.score
      · rw [if_pos hlt] at hm
        obtain rfl := Option.some.inj hm
        exact ⟨m.score, rfl, hlt⟩
      · rw [if_neg hlt] at hm
        exact Option.noConfusion hm
    · intro m hm hlt
      rw [hmem, List.mem_filterMap]
      exact ⟨m, hm, if_pos hlt⟩
    · intro m heq hmemq
      rw [hmem, List.mem_filterMap] at hmemq
      obtain ⟨m2, _, hm2⟩ := hmemq
      by_cases hlt : kw.scoreThreshold.getD 0 < m2.score
      · rw [if_pos hlt] at hm2
        have hinj := Option.some.inj hm2
        have hsc : m2.score = m.score :=
          congrArg (fun d : RawHit => d.score.getD 0) hinj
        rw [hsc, heq] at hlt
        exact lt_irrefl _ hlt
      · rw [if_neg hlt] at hm2
        exact Option.noConfusion hm2

/-- Claim C5 witness: the strict-threshold theorem applied to a concrete
Milvus store with one hit scoring 1 above threshold 0. -/
theorem C5_strict_score_threshold_witness :
    milvusSearchByHybrid [w5ent] "q" w5kw = Except.ok [milvusDocOf w5ent] ∧
    w5ent ∈ milvusHybridSearch [w5ent] (milvusFilter w5kw.documentIdsFilter)
      (w5kw.topK.getD (.pint 4)) ∧
    w5kw.scoreThreshold.getD 0 < w5ent.distance ∧
    milvusDocOf w5ent ∈ [milvusDocOf w5ent] := by
  have hok : milvusSearchByHybrid [w5ent] "q" w5kw = Except.ok [milvusDocOf w5ent] := by decide
  have hmemb : w5ent ∈ milvusHybridSearch [w5ent] (milvusFilter w5kw.documentIdsFilter)
      (w5kw.topK.getD (.pint 4)) := by decide
  have hlt : w5kw.scoreThreshold.getD 0 < w5ent.distance := by decide
  exact ⟨hok, hmemb, hlt,
    (C5_strict_score_threshold.1 [w5ent] "q" w5kw [milvusDocOf w5ent] hok).2.1 w5ent hmemb hlt⟩

/-- Claim C8 (amended): only the AnalyticDB SQL adapter validates top_k;
it raises the validation error for a non-int or non-positive top_k before
querying, while the Milvus adapter never raises a validation error and
passes top_k through to the backend query for every input. -/
theorem C8_amended_top_k_validation :
    (∀ (table : List AdbRow) (q : String) (kw : SearchKwargs),
        kw.topK.getD (.pint 4) = .pnonint →
        adbSearchByHybrid table q kw = Except.error "top_k must be a positive integer") ∧
    (∀ (table : List AdbRow) (q : String) (kw : SearchKwargs) (n : Int),
        kw.topK.getD (.pint 4) = .pint n → n ≤ 0 →
        adbSearchByHybrid table q kw = Except.error "top_k must be a positive integer") ∧
    (∀ (store : List MilvusEntity) (q : String) (kw : SearchKwargs),
        ∃ docs, milvusSearchByHybrid store q kw = Except.ok docs) := by
  refine ⟨?_, ?_, ?_⟩
  · intro table q kw h
    exact adbSearchByHybrid_nonint table q kw h
  · intro table q kw n h hn
    rw [adbSearchByHybrid_pint table q kw n h, if_pos hn]
  · intro store q kw
    exact ⟨_, rfl⟩

/-- Claim C8 witness: the amended theorem applied to top_k = 0 on the SQL
adapter, which fails fast with the validation error. -/
theorem C8_amended_top_k_validation_witness :
    c8kw.topK.getD (.pint 4) = PyTopK.pint 0 ∧ ((0 : Int) ≤ 0) ∧
    adbSearchByHybrid [] "q" c8kw = Except.error "top_k must be a positive integer" := by
  have h1 : c8kw.topK.getD (.pint 4) = PyTopK.pint 0 := by decide
  exact ⟨h1, le_refl 0, C8_amended_top_k_validation.2.1 [] "q" c8kw 0 h1 (le_refl 0)⟩

/-! ### Unrecognized-operator theorems -/

/-- An operator outside the recognized list compiles to no predicate. -/
theorem compiledPredicate_none_of_unrecognized (op name : String) (v : Option MetaValue)
    (h : op ∉ recognizedOperators) : compiledPredicate op name v = none := by
  simp only [recognizedOperators, List.mem_cons, List.not_mem_nil, or_false, not_or] at h
  obtain ⟨h1, h2, h3, h4, h5, h6, h7, h8, h9, h10, h11, h12, h13, h14, h15, h16, h17, h18⟩ := h
  unfold compiledPredicate
  rw [if_neg h1, if_neg h2, if_neg h3, if_neg h4,
    if_neg (not_or.mpr ⟨h5, h6⟩), if_neg (not_or.mpr ⟨h7, h8⟩),
    if_neg h9, if_neg h10,
    if_neg (not_or.mpr ⟨h11, h12⟩), if_neg (not_or.mpr ⟨h13, h14⟩),
    if_neg (not_or.mpr ⟨h15, h16⟩), if_neg (not_or.mpr ⟨h17, h18⟩)]

/-- Folding the filter compiler over conditions whose operators are all
unrecognized leaves the filter list unchanged. -/
theorem foldl_filters_unchanged (cs : List Condition) (fs : List (DocumentRow → Bool))
    (h : ∀ c ∈ cs, c.comparisonOperator ∉ recognizedOperators) :
    cs.foldl (fun fs c => processMetadataFilterFunc c fs) fs = fs := by
  induction cs generalizing fs with
  | nil => rfl
  | cons c cs ih =>
    have hc := h c (by simp)
    have hstep : processMetadataFilterFunc c fs = fs := by
      unfold processMetadataFilterFunc
      rw [compiledPredicate_none_of_unrecognized _ _ _ hc]
    rw [List.foldl_cons, hstep]
    exact ih fs (fun c2 hm => h c2 (by simp [hm]))

/-- Claim C10: a condition with an unrecognized comparison operator appends
no predicate; when every condition of a non-empty metadata_condition is
unrecognized, get_document_id_filter returns None, and a None filter makes
the Milvus search run unrestricted over the whole collection (truncated to
top_k and threshold-filtered only). -/
theorem C10_unrecognized_operators_silent_noop :
    (∀ (c : Condition) (fs : List (DocumentRow → Bool)),
        c.comparisonOperator ∉ recognizedOperators → processMetadataFilterFunc c fs = fs) ∧
    (∀ (docs : List DocumentRow) (dsId : String) (mc : MetadataCondition),
        (∀ c ∈ mc.conditions, c.comparisonOperator ∉ recognizedOperators) →
        get_document_id_filter docs dsId (some mc) = none) ∧
    (∀ (store : List MilvusEntity) (q : String) (kw : SearchKwargs),
        kw.documentIdsFilter = none →
        milvusSearchByHybrid store q kw =
          Except.ok (processSearchResults
            (store.take (pyTopKLimit (kw.topK.getD (.pint 4))))
            (kw.scoreThreshold.getD 0))) := by
  refine ⟨?_, ?_, ?_⟩
  · intro c fs hc
    unfold processMetadataFilterFunc
    rw [compiledPredicate_none_of_unrecognized _ _ _ hc]
  · intro docs dsId mc h
    simp only [get_document_id_filter]
    rw [foldl_filters_unchanged mc.conditions [] h]
    rfl
  · intro store q kw h
    unfold milvusSearchByHybrid milvusHybridSearch milvusFilter
    rw [h]
    have hfilter : store.filter (milvusExprMatch .noFilter) = store :=
      List.filter_eq_self.mpr (fun a _ => rfl)
    simp only [hfilter]

/-- Claim C10 witness: the theorem applied to the unrecognized operator
unknown-op, an all-unrecognized metadata condition, and a filterless
search. -/
theorem C10_unrecognized_operators_witness :
    c10cond.comparisonOperator ∉ recognizedOperators ∧
    processMetadataFilterFunc c10cond [] = [] ∧
    get_document_id_filter [] "ds1" (some c10mc) = none ∧
    milvusSearchByHybrid [c10ent] "q" c10kw =
      Except.ok (processSearchResults
        ([c10ent].take (pyTopKLimit (c10kw.topK.getD (.pint 4))))
        (c10kw.scoreThreshold.getD 0)) := by
  have h1 : c10cond.comparisonOperator ∉ recognizedOperators := by decide
  have h2 : ∀ c ∈ c10mc.conditions, c.comparisonOperator ∉ recognizedOperators := by decide
  exact ⟨h1,
    C10_unrecognized_operators_silent_noop.1 c10cond [] h1,
    C10_unrecognized_operators_silent_noop.2.1 [] "ds1" c10mc h2,
    C10_unrecognized_operators_silent_noop.2.2 [c10ent] "q" c10kw rfl⟩

/-! ### Permission characterization -/

/-- Claim C7 (amended): with the dataset present, the permission check
succeeds exactly when the tenant matches and either the caller holds the
tenant owner role (which bypasses the per-dataset checks) or the only_me
and partial_members rules hold; a missing dataset yields the distinct
not-found failure, and a failed check yields the forbidden failure. -/
theorem C7_amended_access_control :
    (∀ (grants : List PermissionGrant) (d : DatasetRec) (u : AccountRec),
      check_dataset_permission grants d u = Except.ok () ↔
        (d.tenantId = u.currentTenantId ∧
          (u.currentRole = .owner ∨
            ((d.permission = .onlyMe → d.createdBy = u.id) ∧
             (d.permission = .partialMembers →
               (d.createdBy = u.id ∨
                 ∃ g ∈ grants, g.datasetId = d.id ∧ g.accountId = u.id)))))) ∧
    (∀ (datasets : List DatasetRec) (grants : List PermissionGrant) (dsId : String)
        (u : AccountRec),
      (datasetServiceRetrieveCheck datasets grants dsId u = Except.error .notFound ↔
        datasets.find? (fun d => d.id == dsId) = none) ∧
      (∀ d, datasets.find? (fun d => d.id == dsId) = some d →
        ((∃ m, datasetServiceRetrieveCheck datasets grants dsId u =
            Except.error (.forbidden m)) ↔
          check_dataset_permission grants d u ≠ Except.ok ()))) := by
  have hchar : ∀ (grants : List PermissionGrant) (d : DatasetRec) (u : AccountRec),
      check_dataset_permission grants d u = Except.ok () ↔
        (d.tenantId = u.currentTenantId ∧
          (u.currentRole = .owner ∨
            ((d.permission = .onlyMe → d.createdBy = u.id) ∧
             (d.permission = .partialMembers →
               (d.createdBy = u.id ∨
                 ∃ g ∈ grants, g.datasetId = d.id ∧ g.accountId = u.id))))) := by
    intro grants d u
    have hgrant : ((grants.find? (fun g => g.datasetId == d.id && g.accountId == u.id)).isNone
          = true)
        ↔ ¬ ∃ g ∈ grants, g.datasetId = d.id ∧ g.accountId = u.id := by
      rw [Option.isNone_iff_eq_none, ← Option.not_isSome_iff_eq_none, List.find?_isSome]
      simp
    unfold check_dataset_permission
    by_cases h1 : d.tenantId ≠ u.currentTenantId
    · rw [if_pos h1]
      constructor
      · intro he
        exact absurd he (exceptErrorNeOk _ _)
      · rintro ⟨hten, _⟩
        exact absurd hten h1
    · rw [if_neg h1]
      push_neg at h1
      by_cases h2 : u.currentRole ≠ .owner
      · rw [if_pos h2]
        by_cases h3 : d.permission = .onlyMe ∧ d.createdBy ≠ u.id
        · rw [if_pos h3]
          constructor
          · intro he
            exact absurd he (exceptErrorNeOk _ _)
          · rintro ⟨_, hrole | ⟨honly, _⟩⟩
            · exact absurd hrole h2
            · exact absurd (honly h3.1) h3.2
        · rw [if_neg h3]
          by_cases h4 : d.permission = .partialMembers
          · rw [if_pos h4]
            by_cases h5 : d.createdBy ≠ u.id
            · rw [if_pos h5]
              by_cases h6 : ((grants.find? (fun g =>
                  g.datasetId == d.id && g.accountId == u.id)).isNone = true)
              · rw [if_pos h6]
                rw [hgrant] at h6
                constructor
                · intro he
                  exact absurd he (exceptErrorNeOk _ _)
                · rintro ⟨_, hrole | ⟨_, hpart⟩⟩
                  · exact absurd hrole h2
                  · rcases hpart h4 with hc | hex
                    · exact absurd hc h5
                    · exact absurd hex h6
              · rw [if_neg h6]
                rw [hgrant, not_not] at h6
                constructor
                · intro _
                  exact ⟨h1, Or.inr
                    ⟨fun ho => absurd (h4.symm.trans ho) (by decide),
                     fun _ => Or.inr h6⟩⟩
                · intro _
                  rfl
            · rw [if_neg h5]
              push_neg at h5
              constructor
              · intro _
                exact ⟨h1, Or.inr ⟨fun _ => h5, fun _ => Or.inl h5⟩⟩
              · intro _
                rfl
          · rw [if_neg h4]
            constructor
            · intro _
              refine ⟨h1, Or.inr ⟨?_, fun hp => absurd hp h4⟩⟩
              intro ho
              by_contra hne
              exact h3 ⟨ho, hne⟩
            · intro _
              rfl
      · rw [if_neg h2]
        push_neg at h2
        constructor
        · intro _
          exact ⟨h1, Or.inl h2⟩
        · intro _
          rfl
  refine ⟨hchar, ?_⟩
  intro datasets grants dsId u
  constructor
  · cases hf : datasets.find? (fun d => d.id == dsId) with
    | none => simp [datasetServiceRetrieveCheck, hf]
    | some d =>
      simp only [datasetServiceRetrieveCheck, hf]
      cases hc : check_dataset_permission grants d u with
      | error m => simp [hc]
      | ok v =>
        cases v
        simp [hc]
  · intro d hfd
    simp only [datasetServiceRetrieveCheck, hfd]
    cases hc : check_dataset_permission grants d u with
    | error m =>
      constructor
      · intro _
        exact (exceptErrorNeOk _ _)
      · intro _
        exact ⟨m, rfl⟩
    | ok v =>
      cases v
      constructor
      · rintro ⟨m, hm⟩
        exact absurd hm (fun hh => Except.noConfusion hh)
      · intro hne
        exact absurd rfl hne

/-- Claim C7 witness: the amended theorem applied to a concrete dataset list
with a present partial_members dataset, an account with a grant, showing the
forbidden/ok dichotomy at that input. -/
theorem C7_amended_access_control_witness :
    [w7ds].find? (fun d => d.id == "ds2") = some w7ds ∧
    ((∃ m, datasetServiceRetrieveCheck [w7ds] w7grants "ds2" w7u =
        Except.error (.forbidden m)) ↔
      check_dataset_permission w7grants w7ds w7u ≠ Except.ok ()) := by
  have hf : [w7ds].find? (fun d => d.id == "ds2") = some w7ds := by decide
  exact ⟨hf, (C7_amended_access_control.2 [w7ds] w7grants "ds2" w7u).2 w7ds hf⟩

/-! ### Reconciliation-loop lemmas -/

/-- Reading a key after updating it in place. -/
theorem alistGet_update_self (m : List (String × MapEntry)) (k : String)
    (f : MapEntry → MapEntry) (e : MapEntry) (h : alistGet m k = some e) :
    alistGet (alistUpdate m k f) k = some (f e) := by
  induction m with
  | nil => exact Option.noConfusion h
  | cons p t ih =>
    obtain ⟨a, b⟩ := p
    by_cases ha : a = k
    · subst ha
      unfold alistGet at h
      rw [List.find?_cons_of_pos _ (by simp)] at h
      obtain rfl := Option.some.inj h
      unfold alistUpdate alistGet
      rw [List.map_cons, if_pos (by simp), List.find?_cons_of_pos _ (by simp)]
      rfl
    · unfold alistGet at h
      rw [List.find?_cons_of_neg _ (by simp [ha])] at h
      unfold alistUpdate alistGet
      rw [List.map_cons, if_neg (by simp [ha]), List.find?_cons_of_neg _ (by simp [ha])]
      exact ih h

/-- Reading a different key after an in-place update. -/
theorem alistGet_update_ne (m : List (String × MapEntry)) (k s : String)
    (f : MapEntry → MapEntry) (h : s ≠ k) :
    alistGet (alistUpdate m k f) s = alistGet m s := by
  induction m with
  | nil => rfl
  | cons p t ih =>
    obtain ⟨a, b⟩ := p
    by_cases ha : a = k
    · subst ha
      unfold alistUpdate alistGet
      rw [List.map_cons, if_pos (by simp)]
      have has : ¬ a = s := fun hh => h (hh.symm)
      rw [List.find?_cons_of_neg _ (by simp [has]), List.find?_cons_of_neg _ (by simp [has])]
      exact ih
    · unfold alistUpdate alistGet
      rw [List.map_cons, if_neg (by simp [ha])]
      by_cases has : a = s
      · rw [List.find?_cons_of_pos _ (by simp [has]), List.find?_cons_of_pos _ (by simp [has])]
      · rw [List.find?_cons_of_neg _ (by simp [has]), List.find?_cons_of_neg _ (by simp [has])]
        exact ih

/-- Reading any key after appending a single entry at the end. -/
theorem alistGet_append_single (m : List (String × MapEntry)) (k : String)
    (e0 : MapEntry) (s : String) :
    alistGet (m ++ [(k, e0)]) s =
      (alistGet m s).or (if k = s then some e0 else none) := by
  unfold alistGet
  rw [List.find?_append]
  cases hf : m.find? (fun p => p.1 == s) with
  | some p => rfl
  | none =>
    by_cases hk : k = s
    · rw [List.find?_cons_of_pos _ (by simp [hk])]
      simp [hk]
    · rw [List.find?_cons_of_neg _ (by simp [hk])]
      simp [hk]

/-- hierDetails distributes over appending one hit. -/
theorem hierDetails_append (db : RagDB) (pre : List RawHit) (h : RawHit) (s : String) :
    hierDetails db (pre ++ [h]) s = hierDetails db pre s ++ hierDetails db [h] s := by
  unfold hierDetails
  rw [List.filterMap_append]

/-- A hit resolving through the flat branch contributes nothing
hierarchically. -/
theorem resolveHier_of_flat (db : RagDB) (h : RawHit) (dd : DatasetDocumentRow)
    (seg : SegmentRow) (sc : Option Rat) (hc : classifyHit db h = .flat dd seg sc) :
    resolveHier db h = none := by
  rw [resolveHier, hc]

/-- A dropped hit contributes nothing hierarchically. -/
theorem resolveHier_of_skip (db : RagDB) (h : RawHit) (hc : classifyHit db h = .skip) :
    resolveHier db h = none := by
  rw [resolveHier, hc]

/-- The hierarchical contribution of a single hierarchical hit. -/
theorem hierDetails_single_hier (db : RagDB) (h : RawHit) (dd : DatasetDocumentRow)
    (seg : SegmentRow) (d : ChildChunkDetail) (hc : classifyHit db h = .hier dd seg d)
    (s : String) :
    hierDetails db [h] s = if seg.id = s then [d] else [] := by
  have hres : resolveHier db h = some (seg.id, d) := by rw [resolveHier, hc]
  unfold hierDetails
  by_cases hs : seg.id = s <;> simp [hres, hs]

/-- The hierarchical contribution of a single non-hierarchical hit. -/
theorem hierDetails_single_none (db : RagDB) (h : RawHit)
    (hres : resolveHier db h = none) (s : String) :
    hierDetails db [h] s = [] := by
  unfold hierDetails
  simp [hres]

/-- Unfolding of the loop body on a dropped hit. -/
theorem processHit_skip (db : RagDB) (st : FmtState) (h : RawHit)
    (hc : classifyHit db h = .skip) : processHit db st h = .ok st := by
  rw [processHit, hc]

/-- Unfolding of the loop body on a flat hit. -/
theorem processHit_flat (db : RagDB) (st : FmtState) (h : RawHit)
    (dd : DatasetDocumentRow) (seg : SegmentRow) (sc : Option Rat)
    (hc : classifyHit db h = .flat dd seg sc) :
    processHit db st h = .ok (flatNew st dd seg sc) := by
  rw [processHit, hc]

/-- Unfolding of the loop body on a hierarchical hit. -/
theorem processHit_hier (db : RagDB) (st : FmtState) (h : RawHit)
    (dd : DatasetDocumentRow) (seg : SegmentRow) (d : ChildChunkDetail)
    (hc : classifyHit db h = .hier dd seg d) :
    processHit db st h =
      if st.includeSegmentIds.contains seg.id then
        match alistGet st.segmentChildMap seg.id with
        | none => .error ()
        | some _ => .ok (hierGrow st seg.id d)
      else .ok (hierNew st dd seg d) := by
  rw [processHit, hc]

/-- The loop body preserves the invariant. -/
theorem processHit_inv (db : RagDB) (pre : List RawHit) (st st' : FmtState) (h : RawHit)
    (hok : processHit db st h = .ok st') (hinv : StInv db pre st) :
    StInv db (pre ++ [h]) st' := by
  obtain ⟨hi1, hi2, hi3⟩ := hinv
  cases hc : classifyHit db h with
  | skip =>
    rw [processHit_skip db st h hc] at hok
    obtain rfl := Except.ok.inj hok
    have hdet : ∀ s, hierDetails db (pre ++ [h]) s = hierDetails db pre s := by
      intro s
      rw [hierDetails_append, hierDetails_single_none db h (resolveHier_of_skip db h hc) s,
        List.append_nil]
    refine ⟨fun s e hg => ?_, fun s hg => ?_, hi3⟩
    · rw [hdet s]
      exact hi1 s e hg
    · rw [hdet s]
      exact hi2 s hg
  | flat dd seg sc =>
    rw [processHit_flat db st h dd seg sc hc] at hok
    obtain rfl := Except.ok.inj hok
    have hdet : ∀ s, hierDetails db (pre ++ [h]) s = hierDetails db pre s := by
      intro s
      rw [hierDetails_append,
        hierDetails_single_none db h (resolveHier_of_flat db h dd seg sc hc) s,
        List.append_nil]
    refine ⟨fun s e hg => ?_, fun s hg => ?_, fun s hg => ?_⟩
    · have hg' : alistGet st.segmentChildMap s = some e := hg
      obtain ⟨hcc, hfold, r0, hr0m, hr0i⟩ := hi1 s e hg'
      refine ⟨?_, hfold, ⟨r0, List.mem_append_left _ hr0m, hr0i⟩⟩
      rw [hdet s]
      exact hcc
    · have hg' : alistGet st.segmentChildMap s = none := hg
      rw [hdet s]
      exact hi2 s hg'
    · have hg' : (alistGet st.segmentChildMap s).isSome := hg
      exact List.mem_append_left _ (hi3 s hg')
  | hier dd seg d =>
    rw [processHit_hier db st h dd seg d hc] at hok
    have hdet : ∀ s, hierDetails db (pre ++ [h]) s =
        hierDetails db pre s ++ (if seg.id = s then [d] else []) := by
      intro s
      rw [hierDetails_append, hierDetails_single_hier db h dd seg d hc s]
    by_cases hcont : st.includeSegmentIds.contains seg.id = true
    · rw [if_pos hcont] at hok
      cases hget : alistGet st.segmentChildMap seg.id with
      | none =>
        rw [hget] at hok
        exact absurd hok (fun hh => Except.noConfusion hh)
      | some e0 =>
        rw [hget] at hok
        obtain rfl := Except.ok.inj hok
        obtain ⟨hcc0, hfold0, hex0⟩ := hi1 seg.id e0 hget
        refine ⟨fun s e hg => ?_, fun s hg => ?_, fun s hg => ?_⟩
        · have hg' : alistGet (alistUpdate st.segmentChildMap seg.id (fun e =>
            { maxScore := max e.maxScore d.score,
              childChunks := e.childChunks ++ [d] })) s = some e := hg
          by_cases hs : s = seg.id
          · subst hs
            rw [alistGet_update_self st.segmentChildMap seg.id _ e0 hget] at hg'
            obtain rfl := Option.some.inj hg'
            refine ⟨?_, ?_, ?_⟩
            · show e0.childChunks ++ [d] = hierDetails db (pre ++ [h]) seg.id
              rw [hdet seg.id, if_pos rfl, ← hcc0]
            · obtain ⟨d0, ds, hccds, hms⟩ := hfold0
              refine ⟨d0, ds ++ [d], ?_, ?_⟩
              · show e0.childChunks ++ [d] = d0 :: (ds ++ [d])
                rw [hccds]
                rfl
              · show max e0.maxScore d.score =
                  (ds ++ [d]).foldl (fun m x => max m x.score) d0.score
                rw [List.foldl_append, ← hms]
                rfl
            · exact hex0
          · rw [alistGet_update_ne st.segmentChildMap seg.id s _ hs] at hg'
            obtain ⟨hcc, hfold, hex⟩ := hi1 s e hg'
            refine ⟨?_, hfold, hex⟩
            rw [hdet s, if_neg (fun hh => hs hh.symm), List.append_nil]
            exact hcc
        · have hg' : alistGet (alistUpdate st.segmentChildMap seg.id (fun e =>
            { maxScore := max e.maxScore d.score,
              childChunks := e.childChunks ++ [d] })) s = none := hg
          by_cases hs : s = seg.id
          · subst hs
            rw [alistGet_update_self st.segmentChildMap seg.id _ e0 hget] at hg'
            exact Option.noConfusion hg'
          · rw [alistGet_update_ne st.segmentChildMap seg.id s _ hs] at hg'
            rw [hdet s, if_neg (fun hh => hs hh.symm), List.append_nil]
            exact hi2 s hg'
        · have hg' : (alistGet (alistUpdate st.segmentChildMap seg.id (fun e =>
            { maxScore := max e.maxScore d.score,
              childChunks := e.childChunks ++ [d] })) s).isSome := hg
          by_cases hs : s = seg.id
          · subst hs
            exact hi3 seg.id (by rw [hget]; rfl)
          · rw [alistGet_update_ne st.segmentChildMap seg.id s _ hs] at hg'
            exact hi3 s hg'
    · rw [if_neg hcont] at hok
      obtain rfl := Except.ok.inj hok
      have hgetnone : alistGet st.segmentChildMap seg.id = none := by
        cases hgo : alistGet st.segmentChildMap seg.id with
        | none => rfl
        | some e1 =>
          exfalso
          apply hcont
          have hmem := hi3 seg.id (by rw [hgo]; rfl)
          simpa using hmem
      refine ⟨fun s e hg => ?_, fun s hg => ?_, fun s hg => ?_⟩
      · have hg' : alistGet (st.segmentChildMap ++
            [(seg.id, { maxScore := d.score, childChunks := [d] })]) s = some e := hg
        rw [alistGet_append_single] at hg'
        by_cases hs : s = seg.id
        · subst hs
          rw [hgetnone, if_pos rfl] at hg'
          obtain rfl := Option.some.inj hg'
          refine ⟨?_, ⟨d, [], rfl, rfl⟩, ?_⟩
          · show [d] = hierDetails db (pre ++ [h]) seg.id
            rw [hdet seg.id, if_pos rfl, hi2 seg.id hgetnone]
            rfl
          · exact ⟨{ document := dd, segment := seg, score := none },
              List.mem_append_right _ (by simp), rfl⟩
        · rw [if_neg (fun hh => hs hh.symm), Option.or_none] at hg'
          obtain ⟨hcc, hfold, r0, hr0m, hr0i⟩ := hi1 s e hg'
          refine ⟨?_, hfold, ⟨r0, List.mem_append_left _ hr0m, hr0i⟩⟩
          rw [hdet s, if_neg (fun hh => hs hh.symm), List.append_nil]
          exact hcc
      · have hg' : alistGet (st.segmentChildMap ++
            [(seg.id, { maxScore := d.score, childChunks := [d] })]) s = none := hg
        rw [alistGet_append_single] at hg'
        by_cases hs : s = seg.id
        · subst hs
          rw [hgetnone, if_pos rfl] at hg'
          exact Option.noConfusion hg'
        · rw [if_neg (fun hh => hs hh.symm), Option.or_none] at hg'
          rw [hdet s, if_neg (fun hh => hs hh.symm), List.append_nil]
          exact hi2 s hg'
      · by_cases hs : s = seg.id
        · subst hs
          exact List.mem_append_right _ (by simp)
        · have hg' : (alistGet (st.segmentChildMap ++
              [(seg.id, { maxScore := d.score, childChunks := [d] })]) s).isSome := hg
          rw [alistGet_append_single, if_neg (fun hh => hs hh.symm), Option.or_none] at hg'
          exact List.mem_append_left _ (hi3 s hg')

/-- The loop on an empty hit list. -/
theorem runHits_nil (db : RagDB) (st : FmtState) : runHits db st [] = .ok st := rfl

/-- The loop step when the body succeeds. -/
theorem runHits_cons_ok (db : RagDB) (st : FmtState) (h : RawHit) (hs : List RawHit)
    (st1 : FmtState) (hp : processHit db st h = .ok st1) :
    runHits db st (h :: hs) = runHits db st1 hs := by
  rw [runHits, hp]

/-- The whole loop preserves the invariant. -/
theorem runHits_inv (db : RagDB) :
    ∀ (hits pre : List RawHit) (st st' : FmtState),
      runHits db st hits = .ok st' → StInv db pre st → StInv db (pre ++ hits) st' := by
  intro hits
  induction hits with
  | nil =>
    intro pre st st' hok hinv
    rw [runHits_nil] at hok
    obtain rfl := Except.ok.inj hok
    rw [List.append_nil]
    exact hinv
  | cons h hs ih =>
    intro pre st st' hok hinv
    cases hp : processHit db st h with
    | error e =>
      rw [runHits, hp] at hok
      exact absurd hok (fun hh => Except.noConfusion hh)
    | ok st1 =>
      rw [runHits_cons_ok db st h hs st1 hp] at hok
      have h1 := processHit_inv db pre st st1 h hp hinv
      have h2 := ih (pre ++ [h]) st1 st' hok h1
      rw [List.append_assoc] at h2
      exact h2

/-- A hit with no document_id in its metadata is dropped. -/
theorem classifyHit_skip_of_none (db : RagDB) (h : RawHit)
    (hd : h.documentId = none) : classifyHit db h = .skip := by
  rw [classifyHit, hd]

/-- A run over hits that are all dropped leaves the state unchanged. -/
theorem runHits_id_of_skip (db : RagDB) :
    ∀ (hits : List RawHit) (st : FmtState),
      (∀ h ∈ hits, classifyHit db h = .skip) → runHits db st hits = .ok st := by
  intro hits
  induction hits with
  | nil =>
    intro st _
    rfl
  | cons h hs ih =>
    intro st hall
    rw [runHits_cons_ok db st h hs st (processHit_skip db st h (hall h (by simp)))]
    exact ih st (fun h2 hm => hall h2 (by simp [hm]))

/-- The folded maximum of a rational list is a member and an upper bound. -/
theorem foldl_max_spec (a : Rat) (l : List Rat) :
    (l.foldl max a) ∈ a :: l ∧ ∀ x ∈ a :: l, x ≤ l.foldl max a := by
  induction l generalizing a with
  | nil => simp
  | cons b t ih =>
    obtain ⟨hmem, hub⟩ := ih (max a b)
    constructor
    · rw [List.foldl_cons]
      rcases List.mem_cons.mp hmem with hm | hm
      · rcases max_choice a b with hab | hab
        · rw [hm, hab]
          exact List.mem_cons_self _ _
        · rw [hm, hab]
          exact List.mem_cons_of_mem _ (List.mem_cons_self _ _)
      · exact List.mem_cons_of_mem _ (List.mem_cons_of_mem _ hm)
    · intro x hx
      rw [List.foldl_cons]
      rcases List.mem_cons.mp hx with hx | hx
      · subst hx
        exact le_trans (le_max_left x b) (hub _ (List.mem_cons_self _ _))
      · rcases List.mem_cons.mp hx with hx | hx
        · subst hx
          exact le_trans (le_max_right a x) (hub _ (List.mem_cons_self _ _))
        · exact hub x (List.mem_cons_of_mem _ hx)

/-- Attaching child information never changes the segment of a record. -/
theorem attach_segment (m : List (String × MapEntry)) (r : RecRecord) :
    (attachChildInfo m r).segment = r.segment := by
  unfold attachChildInfo
  cases alistGet m r.segment.id <;> rfl

/-- Attaching child information on a mapped segment overrides score and
child chunks with the accumulated entry. -/
theorem attach_of_some (m : List (String × MapEntry)) (r : RecRecord) (e : MapEntry)
    (h : alistGet m r.segment.id = some e) :
    attachChildInfo m r =
      { document := r.document, segment := r.segment,
        childChunks := some e.childChunks, score := some e.maxScore } := by
  unfold attachChildInfo
  rw [h]

/-- Claim C3: for every hierarchical segment accumulated during a successful
reconciliation run, the map entry lists one child-chunk detail per
contributing hit in hit order, its max_score is the fold of max over their
scores starting from the first (hence the maximum of the child scores), and
every output record of that segment carries the accumulated child-chunk
list with its score overridden by max_score. -/
theorem C3_hierarchical_grouping_max_score
    (db : RagDB) (hits : List RawHit) (st : FmtState) (out : List RetrievalSegments)
    (s : String) (e : MapEntry)
    (hrun : runHits db initFmtState hits = Except.ok st)
    (hget : alistGet st.segmentChildMap s = some e)
    (hout : format_retrieval_documents db hits = Except.ok out) :
    e.childChunks = hierDetails db hits s ∧
    (∃ d ds, e.childChunks = d :: ds ∧
      e.maxScore = ds.foldl (fun m x => max m x.score) d.score) ∧
    e.maxScore ∈ e.childChunks.map (fun c => c.score) ∧
    (∀ x ∈ e.childChunks.map (fun c => c.score), x ≤ e.maxScore) ∧
    (∃ r ∈ out, r.segment.id = s) ∧
    (∀ r ∈ out, r.segment.id = s →
      r.score = some e.maxScore ∧ r.childChunks = some e.childChunks) := by
  have hinit : StInv db [] initFmtState := by
    refine ⟨fun s2 e2 hg => ?_, fun s2 hg => rfl, fun s2 hg => ?_⟩
    · exact Option.noConfusion hg
    · exact absurd hg (by rw [show alistGet initFmtState.segmentChildMap s2 = none from rfl]; simp)
  have hinv := runHits_inv db hits [] initFmtState st hrun hinit
  rw [List.nil_append] at hinv
  obtain ⟨hi1, hi2, hi3⟩ := hinv
  obtain ⟨hcc, hfold, hex⟩ := hi1 s e hget
  have hout' : out = st.records.map (attachChildInfo st.segmentChildMap) := by
    by_cases hemp : hits.isEmpty = true
    · rw [List.isEmpty_iff] at hemp
      subst hemp
      rw [runHits_nil] at hrun
      obtain rfl := Except.ok.inj hrun
      exact absurd hget (fun hh => Option.noConfusion hh)
    · by_cases hdoc : (hits.filterMap (fun h => h.documentId)).isEmpty = true
      · have hallskip : ∀ h ∈ hits, classifyHit db h = .skip := by
          intro h hm
          refine classifyHit_skip_of_none db h ?_
          rw [List.isEmpty_iff, List.filterMap_eq_nil_iff] at hdoc
          exact hdoc h hm
        have hsame := runHits_id_of_skip db hits initFmtState hallskip
        rw [hsame] at hrun
        obtain rfl := Except.ok.inj hrun
        exact absurd hget (fun hh => Option.noConfusion hh)
      · rw [format_retrieval_documents, if_neg hemp, if_neg hdoc, hrun] at hout
        exact (Except.ok.inj hout).symm
  subst hout'
  obtain ⟨d0, ds, hccds, hms⟩ := hfold
  have hmax := foldl_max_spec d0.score (ds.map (fun c => c.score))
  have hfm : (ds.map (fun c => c.score)).foldl max d0.score =
      ds.foldl (fun m x => max m x.score) d0.score := by
    rw [List.foldl_map]
  refine ⟨hcc, ⟨d0, ds, hccds, hms⟩, ?_, ?_, ?_, ?_⟩
  · rw [hccds, List.map_cons, hms, ← hfm]
    exact hmax.1
  · intro x hx
    rw [hccds, List.map_cons] at hx
    rw [hms, ← hfm]
    exact hmax.2 x hx
  · obtain ⟨r0, hr0m, hr0i⟩ := hex
    refine ⟨attachChildInfo st.segmentChildMap r0, List.mem_map_of_mem _ hr0m, ?_⟩
    rw [attach_segment]
    exact hr0i
  · intro r hr hrs
    rw [List.mem_map] at hr
    obtain ⟨r0, hr0, rfl⟩ := hr
    have hseg : r0.segment.id = s := by
      rw [← attach_segment st.segmentChildMap r0]
      exact hrs
    have hg0 : alistGet st.segmentChildMap r0.segment.id = some e := by
      rw [hseg]
      exact hget
    rw [attach_of_some st.segmentChildMap r0 e hg0]
    exact ⟨rfl, rfl⟩

/-- Claim C3 witness: the theorem applied to the concrete hierarchical
scenario with two child hits of scores 2 and 9 resolving to segment s1. -/
theorem C3_hierarchical_grouping_max_score_witness :
    runHits c3db initFmtState c3hits = Except.ok c3st ∧
    alistGet c3st.segmentChildMap "s1" = some c3entry ∧
    format_retrieval_documents c3db c3hits = Except.ok c3out ∧
    (c3entry.childChunks = hierDetails c3db c3hits "s1" ∧
      (∃ d ds, c3entry.childChunks = d :: ds ∧
        c3entry.maxScore = ds.foldl (fun m x => max m x.score) d.score) ∧
      c3entry.maxScore ∈ c3entry.childChunks.map (fun c => c.score) ∧
      (∀ x ∈ c3entry.childChunks.map (fun c => c.score), x ≤ c3entry.maxScore) ∧
      (∃ r ∈ c3out, r.segment.id = "s1") ∧
      (∀ r ∈ c3out, r.segment.id = "s1" →
        r.score = some c3entry.maxScore ∧ r.childChunks = some c3entry.childChunks)) := by
  have h1 : runHits c3db initFmtState c3hits = Except.ok c3st := by decide
  have h2 : alistGet c3st.segmentChildMap "s1" = some c3entry := by decide
  have h3 : format_retrieval_documents c3db c3hits = Except.ok c3out := by decide
  exact ⟨h1, h2, h3,
    C3_hierarchical_grouping_max_score c3db c3hits c3st c3out "s1" c3entry h1 h2 h3⟩

end HiggsRag
